import Mathlib

/-!
Shallow embedding of the natural-language-to-UML pipeline
(`scripts/validate_spec.py` and `scripts/gen_uml_from_spec.py`).

Conventions of the embedding:
* JSON documents that reach the validator are modelled by structured Lean
  types (`Spec`, `Device`, `StateS`, `Trans`, `Caps`); an `Option` field
  models a key that may be absent from the JSON object.  A key that is
  present but has a value of the wrong runtime type is outside the modelled
  document space (the pipeline only feeds the validator documents with the
  expected shapes), with one exception kept from the source: a `devices`
  value that is absent is reported as `Missing devices[]`.
* The module-global accumulator `ERRS` of `validate_spec.py` is modelled by
  explicit state passing: every checking function takes the current list of
  recorded diagnostics and returns the extended list, in exactly the order
  the Python code calls `err`.
* Python exceptions (`KeyError` from an unguarded dict subscript,
  `IndexError` from `states[0]`) are modelled with `Except String`:
  `.error` marks the raise, `.ok` the normal return.
* Python string formatting is modelled by string concatenation; `sorted`
  over a `set` of strings is modelled by `pySortedSet` (dedup + insertion
  sort by code-point order, which is how CPython compares `str` values for
  the ASCII data handled here); the `repr` of a list of simple strings,
  as interpolated by an f-string, is modelled by `pyReprStrList`.
* The character classes `\w` and `\s` of the regexes, and `str.strip`, are
  modelled over their ASCII ranges.
-/

/-! ## Python string primitives -/

/-- ASCII whitespace as recognised by `str.strip` and the regex class `\s`. -/
def isPyWs (c : Char) : Bool :=
  c = ' ' || c = '\t' || c = '\n' || c = '\r' || c = Char.ofNat 11 || c = Char.ofNat 12

/-- `str.strip()` on a list of characters: drop whitespace from both ends. -/
def pyStrip (cs : List Char) : List Char :=
  ((cs.dropWhile isPyWs).reverse.dropWhile isPyWs).reverse

/-- Code-point comparison of two character lists, as CPython compares `str`
values (lexicographic by code point). -/
def clLt : List Char → List Char → Bool
  | [], [] => false
  | [], _ :: _ => true
  | _ :: _, [] => false
  | a :: as, b :: bs =>
    if a.toNat < b.toNat then true
    else if b.toNat < a.toNat then false
    else clLt as bs

/-- `≤` on strings by code point, used to model Python `sorted`. -/
def pyStrLe (a b : String) : Bool :=
  clLt a.data b.data || a == b

/-- `sorted(set(l))` for a list of strings: remove duplicates, then sort
ascending by code-point order. -/
def pySortedSet (l : List String) : List String :=
  List.insertionSort (fun a b => pyStrLe a b = true) l.dedup

/-- The text an f-string interpolates for a Python list of (simple,
quote-free) strings: `['a', 'b']`. -/
def pyReprStrList (l : List String) : String :=
  "[" ++ String.intercalate ", " (l.map (fun s => "'" ++ s ++ "'")) ++ "]"

/-- One decimal digit character (argument is taken mod 10 by the callers). -/
def digitChar10 : Nat → Char
  | 0 => '0' | 1 => '1' | 2 => '2' | 3 => '3' | 4 => '4'
  | 5 => '5' | 6 => '6' | 7 => '7' | 8 => '8' | 9 => '9'
  | _ => '*'

/-- Fuel-driven decimal rendering (most significant digit first); the fuel
`n + 1` used by `natToStr` always suffices. -/
def natToStrGo : Nat → Nat → List Char → List Char
  | 0, _, acc => acc
  | fuel + 1, n, acc =>
    let acc1 := digitChar10 (n % 10) :: acc
    if n < 10 then acc1 else natToStrGo fuel (n / 10) acc1

/-- Python `str(n)` for a natural number: decimal rendering. -/
def natToStr (n : Nat) : String :=
  String.mk (natToStrGo (n + 1) n [])

/-! ## Data model: capability schema and spec bundle -/

/-- One capability-schema entry: allowed attributes (with their allowed
value lists) and allowed action names for a device type. -/
structure CapType where
  attributes : List (String × List String)
  actions : List String
deriving DecidableEq

/-- `caps.json`, already parsed: device-type table, allowed comparison
operators, and optional boolean-connective list. -/
structure Caps where
  devices : List (String × CapType)
  ops : List String
  bool_ops : Option (List String)
deriving DecidableEq

/-- One entry of the spec `devices` array.  All three required keys are
present in the modelled document space, so the `Device missing keys`
branch of `validate_devices` is out of scope. -/
structure Device where
  id : String
  type : String
  attributes : List String
deriving DecidableEq

/-- One entry of the spec `states` array.  `id` is present (the
`State missing id` branch is out of the modelled space) and an absent
`invariants` key is the default empty list taken by `st.get`. -/
structure StateS where
  id : String
  invariants : List String
deriving DecidableEq

/-- One entry of the spec `transitions` array; `none` models an absent
key. -/
structure TransS where
  source : Option String
  target : Option String
  trigger : Option String
  action : Option String
deriving DecidableEq

/-- The spec bundle document; `none` models an absent top-level key. -/
structure Spec where
  bundle_name : Option String
  devices : Option (List Device)
  states : Option (List StateS)
  transitions : Option (List TransS)
  notes : Option String
deriving DecidableEq

/-- The device map built by `validate_devices`: device id → device type. -/
abbrev DM := List (String × String)

/-- The capability table `caps_root["devices"]`. -/
abbrev CD := List (String × CapType)

/-- Python dict lookup `m[k]` / `m.get(k)` on the device map. -/
def dmLookup (m : DM) (k : String) : Option String :=
  match m.find? (fun p => p.1 == k) with
  | some p => some p.2
  | none => none

/-- Python `k in m` on the device map. -/
def dmMem (m : DM) (k : String) : Bool :=
  m.any (fun p => p.1 == k)

/-- Python dict assignment `m[k] = v` (overwrite, last write wins). -/
def dmInsert (m : DM) (k v : String) : DM :=
  if dmMem m k then m.map (fun p => if p.1 == k then (k, v) else p)
  else m ++ [(k, v)]

/-- Python dict lookup on the capability table. -/
def cdLookup (cd : CD) (k : String) : Option CapType :=
  match cd.find? (fun p => p.1 == k) with
  | some p => some p.2
  | none => none

/-- Lookup of an attribute inside one capability entry. -/
def attrLookup (ct : CapType) (a : String) : Option (List String) :=
  match ct.attributes.find? (fun p => p.1 == a) with
  | some p => some p.2
  | none => none

/-! ## Grammar engine: the two regexes and the tokenizer -/

/-- The regex class `[a-zA-Z_]` (start of an identifier). -/
def isIdentStart (c : Char) : Bool :=
  c.isUpper || c.isLower || c = '_'

/-- The regex class `\w` over ASCII: `[a-zA-Z0-9_]`. -/
def isWordChar (c : Char) : Bool :=
  c.isAlphanum || c = '_'

/-- Greedy match of `[a-zA-Z_]\w*` at the front of the input; returns the
identifier and the rest.  (No backtracking is ever needed against the
continuations of `TRIG_ATOM_RE` / `ACTION_RE`, whose next characters are
never word characters.) -/
def takeIdent : List Char → Option (List Char × List Char)
  | [] => none
  | c :: rest =>
    if isIdentStart c then
      some (c :: rest.takeWhile isWordChar, rest.dropWhile isWordChar)
    else none

/-- Greedy `\s*`. -/
def dropWs (cs : List Char) : List Char :=
  cs.dropWhile isPyWs

/-- The alternative `(==|!=)`. -/
def takeOp : List Char → Option (String × List Char)
  | '=' :: '=' :: rest => some ("==", rest)
  | '!' :: '=' :: rest => some ("!=", rest)
  | _ => none

/-- Match of one literal character at the front of the input. -/
def expectChar (ch : Char) : List Char → Option (List Char)
  | [] => none
  | c :: cs => if c = ch then some cs else none

/-- `TRIG_ATOM_RE.match`: the anchored regex
`^\s*([a-zA-Z_]\w*)\.([a-zA-Z_]\w*)\s*(==|!=)\s*"([^"]+)"\s*$`
returning the four groups on success. -/
def matchAtom (s : String) : Option (String × String × String × String) :=
  match takeIdent (dropWs s.data) with
  | none => none
  | some (dev, cs) =>
    match expectChar '.' cs with
    | none => none
    | some cs2 =>
      match takeIdent cs2 with
      | none => none
      | some (attr, cs3) =>
        match takeOp (dropWs cs3) with
        | none => none
        | some (op, cs4) =>
          match expectChar '"' (dropWs cs4) with
          | none => none
          | some cs5 =>
            if (cs5.takeWhile (fun c => c ≠ '"')).isEmpty then none
            else
              match expectChar '"' (cs5.dropWhile (fun c => c ≠ '"')) with
              | none => none
              | some cs6 =>
                if (dropWs cs6).isEmpty then
                  some (String.mk dev, String.mk attr, op,
                    String.mk (cs5.takeWhile (fun c => c ≠ '"')))
                else none

/-- `ACTION_RE.match`: the anchored regex
`^\s*([a-zA-Z_]\w*)\.([a-zA-Z_]\w*)\(\)\s*$` returning the two groups. -/
def matchAction (s : String) : Option (String × String) :=
  match takeIdent (dropWs s.data) with
  | none => none
  | some (dev, cs) =>
    match expectChar '.' cs with
    | none => none
    | some cs2 =>
      match takeIdent cs2 with
      | none => none
      | some (cmd, cs3) =>
        match expectChar '(' cs3 with
        | none => none
        | some cs4 =>
          match expectChar ')' cs4 with
          | none => none
          | some cs5 =>
            if (dropWs cs5).isEmpty then some (String.mk dev, String.mk cmd)
            else none

/-- Final flush of `split_bool`: append the trailing buffer as an atom token
only if its stripped text is non-empty. -/
def sbFinish (buf : List Char) : List String :=
  if (pyStrip buf).isEmpty then [] else [String.mk (pyStrip buf)]

/-- The character scan of `split_bool`: whenever the input starts with `&&`
or `||`, flush the (stripped) buffer unconditionally, emit the operator and
reset the buffer; any other character is accumulated. -/
def sbGo : List Char → List Char → List String
  | [], buf => sbFinish buf
  | [c], buf => sbFinish (buf ++ [c])
  | c :: c2 :: rest, buf =>
    if (c = '&' && c2 = '&') || (c = '|' && c2 = '|') then
      String.mk (pyStrip buf) :: String.mk [c, c2] :: sbGo rest []
    else
      sbGo (c2 :: rest) (buf ++ [c])

/-- `split_bool(expr, bool_ops)`.  Note the source ignores its `bool_ops`
argument and hard-codes `&&` / `||` in the scan; the unused parameter is
kept to mirror the signature. -/
def split_bool (expr : String) (boolOps : List String) : List String :=
  sbGo expr.data []

/-! ## Diagnostic message texts (the f-strings of `validate_spec.py`) -/

/-- `f"Bad trigger atom: {atom}"` -/
def badAtomMsg (atom : String) : String := "Bad trigger atom: " ++ atom

/-- `f"Unknown device in trigger: {dev}"` -/
def unknownDevTrigMsg (dev : String) : String := "Unknown device in trigger: " ++ dev

/-- `f"Unknown attribute {dev}.{attr}"` -/
def unknownAttrTrigMsg (dev attr : String) : String :=
  "Unknown attribute " ++ dev ++ "." ++ attr

/-- `f"Invalid operator {op} in {atom}"` -/
def invalidOpTrigMsg (op atom : String) : String :=
  "Invalid operator " ++ op ++ " in " ++ atom

/-- `f"Invalid value {val} for {dev}.{attr}; allowed={sorted(allowed_vals)}"` -/
def invalidValTrigMsg (val dev attr : String) (allowed : List String) : String :=
  "Invalid value " ++ val ++ " for " ++ dev ++ "." ++ attr ++ "; allowed=" ++
    pyReprStrList allowed

/-- `f"Expected boolean op between atoms, got: {tok}"` -/
def expectedBoolOpMsg (tok : String) : String :=
  "Expected boolean op between atoms, got: " ++ tok

/-- `"Trigger expression ends with operator"` -/
def endsWithOpMsg : String := "Trigger expression ends with operator"

/-- `f"Bad action syntax: {act}"` -/
def badActionMsg (act : String) : String := "Bad action syntax: " ++ act

/-- `f"Unknown device in action: {dev}"` -/
def unknownDevActMsg (dev : String) : String := "Unknown device in action: " ++ dev

/-- `f"Command {cmd} not allowed for {dev} (type {dtype}); allowed={sorted(allowed)}"` -/
def cmdNotAllowedMsg (cmd dev dtype : String) (allowed : List String) : String :=
  "Command " ++ cmd ++ " not allowed for " ++ dev ++ " (type " ++ dtype ++
    "); allowed=" ++ pyReprStrList allowed

/-- `f"Unknown device type: {dtype}"` -/
def unknownTypeMsg (dtype : String) : String := "Unknown device type: " ++ dtype

/-- `f"Duplicate device id: {did}"` -/
def dupDevMsg (did : String) : String := "Duplicate device id: " ++ did

/-- `f"Device {did} attributes invalid: {invalid}"` -/
def devAttrsInvalidMsg (did : String) (invalid : List String) : String :=
  "Device " ++ did ++ " attributes invalid: " ++ pyReprStrList invalid

/-- `f"Required device missing: {must}"` -/
def requiredDevMsg (must : String) : String := "Required device missing: " ++ must

/-- `f"Missing key: {k}"` -/
def missingKeyMsg (k : String) : String := "Missing key: " ++ k

/-- `f"Duplicate state id: {sid}"` -/
def dupStateMsg (sid : String) : String := "Duplicate state id: " ++ sid

/-- `f"Bad invariant atom in state {sid}: {iv}"` -/
def badInvMsg (sid iv : String) : String :=
  "Bad invariant atom in state " ++ sid ++ ": " ++ iv

/-- `f"Unknown device in invariant: {dev}"` -/
def unknownDevInvMsg (dev : String) : String := "Unknown device in invariant: " ++ dev

/-- `f"Unknown attribute {dev}.{attr} in invariant"` -/
def unknownAttrInvMsg (dev attr : String) : String :=
  "Unknown attribute " ++ dev ++ "." ++ attr ++ " in invariant"

/-- `f"Invalid operator {op} in invariant"` -/
def invalidOpInvMsg (op : String) : String :=
  "Invalid operator " ++ op ++ " in invariant"

/-- `f"Invalid value {val} for {dev}.{attr} in invariant"` (note: unlike the
trigger-atom message, this one does not carry the allowed-value set). -/
def invalidValInvMsg (val dev attr : String) : String :=
  "Invalid value " ++ val ++ " for " ++ dev ++ "." ++ attr ++ " in invariant"

/-- `f"Transition {i} missing {k}"` -/
def transMissingMsg (i : Nat) (k : String) : String :=
  "Transition " ++ natToStr i ++ " missing " ++ k

/-- `f"Transition {i} unknown source: {src}"` -/
def unknownSrcMsg (i : Nat) (src : String) : String :=
  "Transition " ++ natToStr i ++ " unknown source: " ++ src

/-- `f"Transition {i} unknown target: {tgt}"` -/
def unknownTgtMsg (i : Nat) (tgt : String) : String :=
  "Transition " ++ natToStr i ++ " unknown target: " ++ tgt

/-- What an f-string prints for `tr.get(k)`: the string itself, or `None`
when the key is absent. -/
def optRepr : Option String → String
  | none => "None"
  | some s => s

/-! ## Validator: atom / trigger / action checks -/

/-- `validate_atom(atom, dev_map, caps_devices, ops)`; appends to the
running diagnostics list exactly as the source appends to `ERRS`.  The
unguarded subscript `caps_devices[dtype]` is an `Except.error` (it cannot
fire on maps produced by `validate_devices`, whose values are known
types). -/
def validate_atom (atom : String) (dm : DM) (cd : CD) (ops : List String)
    (errs : List String) : Except String (List String) :=
  match matchAtom atom with
  | none => .ok (errs ++ [badAtomMsg atom])
  | some (dev, attr, op, val) =>
    match dmLookup dm dev with
    | none => .ok (errs ++ [unknownDevTrigMsg dev])
    | some dtype =>
      match cdLookup cd dtype with
      | none => .error "KeyError: caps_devices[dtype]"
      | some ct =>
        match attrLookup ct attr with
        | none => .ok (errs ++ [unknownAttrTrigMsg dev attr])
        | some vals =>
          .ok (errs ++
            (if op ∈ ops then [] else [invalidOpTrigMsg op atom]) ++
            (if val ∈ vals then [] else
              [invalidValTrigMsg val dev attr (pySortedSet vals)]))

/-- The token walk of `validate_trigger`: the two-state expectation machine
(`expect_atom` flips on every token; a token in operator position that is
not a connective is reported but the state still flips). -/
def triggerWalk (dm : DM) (cd : CD) (bops ops : List String) :
    List String → Bool → List String → Except String (List String × Bool)
  | [], ea, errs => .ok (errs, ea)
  | tok :: rest, true, errs =>
    match validate_atom tok dm cd ops errs with
    | .error e => .error e
    | .ok errs1 => triggerWalk dm cd bops ops rest false errs1
  | tok :: rest, false, errs =>
    triggerWalk dm cd bops ops rest true
      (if tok ∈ bops then errs else errs ++ [expectedBoolOpMsg tok])

/-- `validate_trigger(expr, dev_map, caps_devices, bool_ops, ops)`:
tokenize, walk, and flag a trailing operator position. -/
def validate_trigger (expr : String) (dm : DM) (cd : CD)
    (bops ops : List String) (errs : List String) : Except String (List String) :=
  match triggerWalk dm cd bops ops (split_bool expr bops) true errs with
  | .error e => .error e
  | .ok (errs1, ea) =>
    .ok (if split_bool expr bops ≠ [] ∧ ea then errs1 ++ [endsWithOpMsg] else errs1)

/-- `validate_action(act, dev_map, caps_devices)`. -/
def validate_action (act : String) (dm : DM) (cd : CD)
    (errs : List String) : Except String (List String) :=
  match matchAction act with
  | none => .ok (errs ++ [badActionMsg act])
  | some (dev, cmd) =>
    match dmLookup dm dev with
    | none => .ok (errs ++ [unknownDevActMsg dev])
    | some dtype =>
      match cdLookup cd dtype with
      | none => .error "KeyError: caps_devices[dtype]"
      | some ct =>
        .ok (errs ++
          (if cmd ∈ ct.actions then [] else
            [cmdNotAllowedMsg cmd dev dtype (pySortedSet ct.actions)]))

/-! ## Validator: device phase -/

/-- The loop body of `validate_devices` over the `devices` array. -/
def devLoop (cd : CD) : List Device → DM → List String → List String × DM
  | [], dm, errs => (errs, dm)
  | d :: ds, dm, errs =>
    match cdLookup cd d.type with
    | none => devLoop cd ds dm (errs ++ [unknownTypeMsg d.type])
    | some ct =>
      let errs1 := errs ++ (if dmMem dm d.id then [dupDevMsg d.id] else [])
      let dm1 := dmInsert dm d.id d.type
      let want := ct.attributes.map (fun p => p.1)
      let errs2 := errs1 ++
        (if d.attributes.all (fun a => want.contains a) then []
         else [devAttrsInvalidMsg d.id
                 (pySortedSet (d.attributes.filter (fun a => ¬ want.contains a)))])
      devLoop cd ds dm1 errs2

/-- The fixed baseline of required v1 device ids. -/
def requiredDevices : List String := ["presenceSensor", "motionSensor", "switch"]

/-- `validate_devices(spec, caps_root)`: returns the extended diagnostics,
the device map and the capability table (`{}` twice when `devices` is
missing). -/
def validate_devices (spec : Spec) (caps : Caps) (errs : List String) :
    List String × DM × CD :=
  match spec.devices with
  | none => (errs ++ ["Missing devices[]"], [], [])
  | some ds =>
    ((devLoop caps.devices ds [] errs).1 ++
       (requiredDevices.filter
         (fun m => ¬ dmMem (devLoop caps.devices ds [] errs).2 m)).map requiredDevMsg,
     (devLoop caps.devices ds [] errs).2, caps.devices)

/-! ## Validator: state phase -/

/-- The per-invariant check of `main` (lines 259-280 of the source).  Unlike
`validate_atom`, an unknown attribute here records its diagnostic but then
falls through to the subscript
`caps_devices[dtype]["attributes"][attr]`, which raises `KeyError`. -/
def checkInvariant (sid iv : String) (dm : DM) (cd : CD) (ops : List String)
    (errs : List String) : Except String (List String) :=
  match matchAtom iv with
  | none => .ok (errs ++ [badInvMsg sid iv])
  | some (dev, attr, op, val) =>
    match dmLookup dm dev with
    | none => .ok (errs ++ [unknownDevInvMsg dev])
    | some dtype =>
      match cdLookup cd dtype with
      | none => .error "KeyError: caps_devices[dtype]"
      | some ct =>
        let errs1 := errs ++
          (if (attrLookup ct attr).isSome then [] else [unknownAttrInvMsg dev attr])
        let errs2 := errs1 ++ (if op ∈ ops then [] else [invalidOpInvMsg op])
        match attrLookup ct attr with
        | none => .error "KeyError: attributes[attr]"
        | some vals =>
          .ok (errs2 ++ (if val ∈ vals then [] else [invalidValInvMsg val dev attr]))

/-- The inner loop over one state's invariants. -/
def invLoop (sid : String) (dm : DM) (cd : CD) (ops : List String) :
    List String → List String → Except String (List String)
  | [], errs => .ok errs
  | iv :: ivs, errs =>
    match checkInvariant sid iv dm cd ops errs with
    | .error e => .error e
    | .ok errs1 => invLoop sid dm cd ops ivs errs1

/-- The loop over the `states` array: duplicate-id flagging, id collection
(a set: first occurrence kept), and invariant checks. -/
def stateLoop (dm : DM) (cd : CD) (ops : List String) :
    List StateS → List String → List String → Except String (List String × List String)
  | [], sids, errs => .ok (errs, sids)
  | st :: sts, sids, errs =>
    let errs1 := errs ++ (if st.id ∈ sids then [dupStateMsg st.id] else [])
    let sids1 := if st.id ∈ sids then sids else sids ++ [st.id]
    match invLoop st.id dm cd ops st.invariants errs1 with
    | .error e => .error e
    | .ok errs2 => stateLoop dm cd ops sts sids1 errs2

/-- The state phase of `main`: silently skipped when `states` is absent
(`isinstance` guard), otherwise the loop above with an empty id set. -/
def statesPhase (spec : Spec) (dm : DM) (cd : CD) (ops : List String)
    (errs : List String) : Except String (List String × List String) :=
  match spec.states with
  | none => .ok (errs, [])
  | some sts => stateLoop dm cd ops sts [] errs

/-! ## Validator: transition phase -/

/-- The four required-key diagnostics for one transition, in source order. -/
def transKeyDiags (i : Nat) (tr : TransS) : List String :=
  (if tr.source.isSome then [] else [transMissingMsg i "source"]) ++
  (if tr.target.isSome then [] else [transMissingMsg i "target"]) ++
  (if tr.trigger.isSome then [] else [transMissingMsg i "trigger"]) ++
  (if tr.action.isSome then [] else [transMissingMsg i "action"])

/-- `src not in state_ids` for an optional field (an absent key is `None`,
which is never in the set and prints as `None`). -/
def refDiag (sids : List String) (f : Option String)
    (mk : String → String) : List String :=
  match f with
  | none => [mk (optRepr none)]
  | some s => if s ∈ sids then [] else [mk (optRepr (some s))]

/-- The loop over the `transitions` array (`enumerate(..., start=1)`). -/
def transLoop (dm : DM) (cd : CD) (sids : List String)
    (bops ops : List String) : List TransS → Nat → List String → Except String (List String)
  | [], _, errs => .ok errs
  | tr :: trs, i, errs =>
    let errs1 := errs ++ transKeyDiags i tr
    let errs2 := errs1 ++ refDiag sids tr.source (unknownSrcMsg i)
    let errs3 := errs2 ++ refDiag sids tr.target (unknownTgtMsg i)
    match validate_trigger (tr.trigger.getD "") dm cd bops ops errs3 with
    | .error e => .error e
    | .ok errs4 =>
      match validate_action (tr.action.getD "") dm cd errs4 with
      | .error e => .error e
      | .ok errs5 => transLoop dm cd sids bops ops trs (i + 1) errs5

/-- The transition phase of `main`: silently skipped when `transitions` is
absent (`isinstance` guard). -/
def transPhase (spec : Spec) (dm : DM) (cd : CD) (sids : List String)
    (bops ops : List String) (errs : List String) : Except String (List String) :=
  match spec.transitions with
  | none => .ok errs
  | some trs => transLoop dm cd sids bops ops trs 1 errs

/-! ## Validator: top level -/

/-- The required top-level key check of `main` (fixed key order). -/
def keyDiags (spec : Spec) : List String :=
  (if spec.bundle_name.isSome then [] else [missingKeyMsg "bundle_name"]) ++
  (if spec.devices.isSome then [] else [missingKeyMsg "devices"]) ++
  (if spec.states.isSome then [] else [missingKeyMsg "states"]) ++
  (if spec.transitions.isSome then [] else [missingKeyMsg "transitions"]) ++
  (if spec.notes.isSome then [] else [missingKeyMsg "notes"])

/-- `main` from loading to the final `ERRS` value: key check, device phase,
state phase, transition phase, threading the accumulator throughout.  The
`errs` argument is the content of the module-global `ERRS` on entry (the
CLI enters with `[]`; the global is never reset, so a second in-process
validation enters with the first call's output). -/
def mainValidate (spec : Spec) (caps : Caps) (errs : List String) :
    Except String (List String) :=
  match validate_devices spec caps (errs ++ keyDiags spec) with
  | (errs2, dm, cd) =>
    match statesPhase spec dm cd caps.ops errs2 with
    | .error e => .error e
    | .ok (errs3, sids) =>
      transPhase spec dm cd sids (caps.bool_ops.getD ["&&", "||"]) caps.ops errs3

/-- The tool reports `OK` (exit 0) exactly when the run ends normally with
an empty diagnostics list. -/
def reportsOK (spec : Spec) (caps : Caps) : Prop :=
  mainValidate spec caps [] = .ok []

/-! ## Generator (`gen_uml_from_spec.py`): escaping and normalization -/

/-- `html.escape(x, quote=True)` on one character. -/
def escChar (c : Char) : List Char :=
  if c = '&' then "&amp;".data
  else if c = '<' then "&lt;".data
  else if c = '>' then "&gt;".data
  else if c = '"' then "&quot;".data
  else if c = Char.ofNat 39 then "&#x27;".data
  else [c]

/-- `h(x) = html.escape(x, quote=True)`: the five sequential `replace`
calls of `html.escape` amount to this character-wise map (each replacement
source is a single character and the later passes never rewrite the `&` of
an earlier replacement). -/
def hEscape (s : String) : String :=
  String.mk (s.data.foldr (fun c acc => escChar c ++ acc) [])

/-- Literal-prefix match: consume exactly `lit` from the front. -/
def stripLit : List Char → List Char → Option (List Char)
  | [], cs => some cs
  | _ :: _, [] => none
  | l :: ls, c :: cs => if c = l then stripLit ls cs else none

/-- Try the pattern `(presenceSensor\.presence\s*OP\s*)"notpresent"` at the
front of the input; on success return the group-1 text and the rest of the
input after the match. -/
def tryNP (opChars : List Char) (cs : List Char) : Option (List Char × List Char) :=
  match stripLit "presenceSensor.presence".data cs with
  | none => none
  | some cs1 =>
    let w1 := cs1.takeWhile isPyWs
    match stripLit opChars (cs1.dropWhile isPyWs) with
    | none => none
    | some cs3 =>
      let w2 := cs3.takeWhile isPyWs
      match stripLit "\"notpresent\"".data (cs3.dropWhile isPyWs) with
      | none => none
      | some cs5 =>
        some ("presenceSensor.presence".data ++ w1 ++ opChars ++ w2, cs5)

/-- `re.sub` scan for one of the two patterns: leftmost, non-overlapping,
continuing after each replacement; replacement is group 1 followed by
`"not present"`.  Fuel-driven (one unit per scanned position; the callers
pass `length + 1`). -/
def normGo (opChars : List Char) : Nat → List Char → List Char
  | 0, cs => cs
  | _ + 1, [] => []
  | fuel + 1, c :: rest =>
    match tryNP opChars (c :: rest) with
    | some (g1, rest1) => g1 ++ "\"not present\"".data ++ normGo opChars fuel rest1
    | none => c :: normGo opChars fuel rest

/-- `normalize_expr`: rewrite `presenceSensor.presence == "notpresent"` and
then `presenceSensor.presence != "notpresent"` to the `"not present"`
spelling. -/
def normalize_expr (e : String) : String :=
  let d1 := normGo "==".data (e.data.length + 1) e.data
  String.mk (normGo "!=".data (d1.length + 1) d1)

/-! ## Generator: deterministic ids and the three section builders -/

/-- One transition of a validated spec as read by the generator (the four
keys are present and string-valued once validation passed). -/
structure GTrans where
  source : String
  target : String
  trigger : String
  action : String
deriving DecidableEq

/-- The dict comprehension `{s["id"]: f's_{s["id"]}' for s in states}` as a
lookup function: defined exactly on declared state ids, with value
`s_<id>`. -/
def xmiIds (states : List StateS) (sid : String) : Option String :=
  if (states.map (fun s => s.id)).contains sid then some ("s_" ++ sid) else none

/-- `'      <subvertex xmi:type="uml:Pseudostate" xmi:id="init_1"/>'` -/
def pseudoLine : String := "      <subvertex xmi:type=\"uml:Pseudostate\" xmi:id=\"init_1\"/>"

/-- `'      <subvertex xmi:type="uml:FinalState" xmi:id="final_1"/>'` -/
def finalLine : String := "      <subvertex xmi:type=\"uml:FinalState\" xmi:id=\"final_1\"/>"

/-- The per-state `<subvertex>` line of `make_state_nodes`. -/
def stateNodeLine (x sid : String) : String :=
  "      <subvertex xmi:type=\"uml:State\" xmi:id=\"" ++ x ++ "\" name=\"" ++
    hEscape sid ++ "\"/>"

/-- The loop of `make_state_nodes` over the states (dict subscript modelled
with `Except`). -/
def stateNodeLoop (m : String → Option String) : List StateS → Except String (List String)
  | [] => .ok []
  | s :: ss =>
    match m s.id with
    | none => .error "KeyError: state_xmi_ids[sid]"
    | some x =>
      match stateNodeLoop m ss with
      | .error e => .error e
      | .ok rest => .ok (stateNodeLine x s.id :: rest)

/-- `make_state_nodes(states, state_xmi_ids)`. -/
def make_state_nodes (states : List StateS) (m : String → Option String) :
    Except String (List String) :=
  match stateNodeLoop m states with
  | .error e => .error e
  | .ok mid => .ok (pseudoLine :: mid ++ [finalLine])

/-- The `t_init` transition line (`init_1 →` first declared state). -/
def initTransLine (x : String) : String :=
  "      <transition xmi:type=\"uml:Transition\" xmi:id=\"t_init\" source=\"init_1\" target=\"" ++
    x ++ "\"/>"

/-- The user transition line with id `t_<i>`. -/
def userTransLine (i : Nat) (src tgt : String) : String :=
  "      <transition xmi:type=\"uml:Transition\" xmi:id=\"t_" ++ natToStr i ++
    "\" source=\"" ++ src ++ "\" target=\"" ++ tgt ++ "\"/>"

/-- The loop of `make_transitions` over the user transitions
(`enumerate(transitions, start=1)`). -/
def transLineLoop (m : String → Option String) : List GTrans → Nat → Except String (List String)
  | [], _ => .ok []
  | tr :: trs, i =>
    match m tr.source with
    | none => .error "KeyError: state_xmi_ids[source]"
    | some s =>
      match m tr.target with
      | none => .error "KeyError: state_xmi_ids[target]"
      | some t =>
        match transLineLoop m trs (i + 1) with
        | .error e => .error e
        | .ok rest => .ok (userTransLine i s t :: rest)

/-- `make_transitions(states, transitions, state_xmi_ids)`: the `t_init`
line to `states[0]` (an `IndexError` when the state list is empty), then
the numbered user transitions. -/
def make_transitions (states : List StateS) (trs : List GTrans)
    (m : String → Option String) : Except String (List String) :=
  match states with
  | [] => .error "IndexError: states[0]"
  | s0 :: _ =>
    match m s0.id with
    | none => .error "KeyError: state_xmi_ids[first_sid]"
    | some x0 =>
      match transLineLoop m trs 1 with
      | .error e => .error e
      | .ok rest => .ok (initTransLine x0 :: rest)

/-- The `<MDSSED:states>` opening line with id `stinv_<k>`. -/
def stinvOpenLine (k : Nat) (base : String) : String :=
  "  <MDSSED:states xmi:id=\"stinv_" ++ natToStr k ++ "\" base_State=\"" ++ base ++ "\">"

/-- One `<state>` invariant line. -/
def invLine (iv : String) : String :=
  "    <state>" ++ hEscape (normalize_expr iv) ++ "</state>"

/-- The full stereotype block of the `k`-th state. -/
def stateStereoBlock (k : Nat) (base : String) (invs : List String) : List String :=
  stinvOpenLine k base :: invs.map invLine ++ ["  </MDSSED:states>"]

/-- The stereotype loop over states (`inv_counter` starts at 1). -/
def stateStereoLoop (m : String → Option String) : List StateS → Nat → Except String (List String)
  | [], _ => .ok []
  | s :: ss, k =>
    match m s.id with
    | none => .error "KeyError: state_xmi_ids[sid]"
    | some base =>
      match stateStereoLoop m ss (k + 1) with
      | .error e => .error e
      | .ok rest => .ok (stateStereoBlock k base s.invariants ++ rest)

/-- The `<MDSSED:triggers>` opening line: id `trig_<i>`, base `t_<i>`. -/
def trigOpenLine (i : Nat) : String :=
  "  <MDSSED:triggers xmi:id=\"trig_" ++ natToStr i ++ "\" base_Transition=\"t_" ++
    natToStr i ++ "\">"

/-- The `<MDSSED:actions>` opening line: id `act_<i>`, base `t_<i>`. -/
def actOpenLine (i : Nat) : String :=
  "  <MDSSED:actions xmi:id=\"act_" ++ natToStr i ++ "\" base_Transition=\"t_" ++
    natToStr i ++ "\">"

/-- The trigger/action stereotype block of the `i`-th user transition. -/
def transStereoBlock (i : Nat) (tr : GTrans) : List String :=
  [trigOpenLine i,
   "    <trigger>" ++ hEscape (normalize_expr tr.trigger) ++ "</trigger>",
   "  </MDSSED:triggers>",
   actOpenLine i,
   "    <action>" ++ hEscape tr.action ++ "</action>",
   "  </MDSSED:actions>"]

/-- The stereotype loop over user transitions (`enumerate(..., start=1)`;
`t_init` is never visited). -/
def transStereoLoop : List GTrans → Nat → List String
  | [], _ => []
  | tr :: trs, i => transStereoBlock i tr ++ transStereoLoop trs (i + 1)

/-- `make_stereotypes(states, transitions, state_xmi_ids)`. -/
def make_stereotypes (states : List StateS) (trs : List GTrans)
    (m : String → Option String) : Except String (List String) :=
  match stateStereoLoop m states 1 with
  | .error e => .error e
  | .ok stBlocks => .ok (stBlocks ++ transStereoLoop trs 1)

/-- Position-indexed map with an explicit start index, used to state the
closed forms of the `enumerate` loops above. -/
def enumMap (f : Nat → α → β) : Nat → List α → List β
  | _, [] => []
  | i, a :: as => f i a :: enumMap f (i + 1) as

/-! ## De-threading lemmas: each checker extends its input diagnostics list
by exactly the diagnostics of a pure run started from `[]`. -/

theorem validate_atom_thread (atom : String) (dm : DM) (cd : CD) (ops : List String)
    (errs : List String) :
    validate_atom atom dm cd ops errs =
      (validate_atom atom dm cd ops []).map (fun l => errs ++ l) := by
  unfold validate_atom
  repeat' split
  all_goals simp [Except.map]

theorem triggerWalk_thread (dm : DM) (cd : CD) (bops ops : List String) :
    ∀ (toks : List String) (ea : Bool) (errs : List String),
      triggerWalk dm cd bops ops toks ea errs =
        (triggerWalk dm cd bops ops toks ea []).map (fun p => (errs ++ p.1, p.2)) := by
  intro toks
  induction toks with
  | nil => intro ea errs; simp [triggerWalk, Except.map]
  | cons tok rest ih =>
    intro ea errs
    cases ea with
    | true =>
      simp only [triggerWalk]
      rw [validate_atom_thread]
      cases h : validate_atom tok dm cd ops [] with
      | error e => simp [Except.map]
      | ok l =>
        simp only [Except.map]
        rw [ih false l, ih false (errs ++ l)]
        cases triggerWalk dm cd bops ops rest false [] <;> simp [Except.map]
    | false =>
      simp only [triggerWalk]
      rw [ih true (if tok ∈ bops then errs else errs ++ [expectedBoolOpMsg tok]),
          ih true (if tok ∈ bops then [] else [] ++ [expectedBoolOpMsg tok])]
      cases triggerWalk dm cd bops ops rest true [] <;>
        by_cases htok : tok ∈ bops <;> simp [Except.map, htok]

theorem validate_trigger_thread (expr : String) (dm : DM) (cd : CD)
    (bops ops : List String) (errs : List String) :
    validate_trigger expr dm cd bops ops errs =
      (validate_trigger expr dm cd bops ops []).map (fun l => errs ++ l) := by
  unfold validate_trigger
  rw [triggerWalk_thread]
  cases triggerWalk dm cd bops ops (split_bool expr bops) true [] with
  | error e => simp [Except.map]
  | ok p =>
    by_cases h : split_bool expr bops ≠ [] ∧ p.2 = true <;>
      simp [Except.map, h]

theorem validate_action_thread (act : String) (dm : DM) (cd : CD)
    (errs : List String) :
    validate_action act dm cd errs =
      (validate_action act dm cd []).map (fun l => errs ++ l) := by
  unfold validate_action
  repeat' split
  all_goals simp [Except.map]

theorem checkInvariant_thread (sid iv : String) (dm : DM) (cd : CD)
    (ops : List String) (errs : List String) :
    checkInvariant sid iv dm cd ops errs =
      (checkInvariant sid iv dm cd ops []).map (fun l => errs ++ l) := by
  unfold checkInvariant
  repeat' split
  all_goals simp [Except.map]

theorem invLoop_thread (sid : String) (dm : DM) (cd : CD) (ops : List String) :
    ∀ (ivs : List String) (errs : List String),
      invLoop sid dm cd ops ivs errs =
        (invLoop sid dm cd ops ivs []).map (fun l => errs ++ l) := by
  intro ivs
  induction ivs with
  | nil => intro errs; simp [invLoop, Except.map]
  | cons iv rest ih =>
    intro errs
    simp only [invLoop]
    rw [checkInvariant_thread]
    cases h : checkInvariant sid iv dm cd ops [] with
    | error e => simp [Except.map]
    | ok l =>
      simp only [Except.map]
      rw [ih l, ih (errs ++ l)]
      cases invLoop sid dm cd ops rest [] <;> simp [Except.map]

theorem stateLoop_thread (dm : DM) (cd : CD) (ops : List String) :
    ∀ (sts : List StateS) (sids errs : List String),
      stateLoop dm cd ops sts sids errs =
        (stateLoop dm cd ops sts sids []).map (fun p => (errs ++ p.1, p.2)) := by
  intro sts
  induction sts with
  | nil => intro sids errs; simp [stateLoop, Except.map]
  | cons st rest ih =>
    intro sids errs
    simp only [stateLoop]
    rw [invLoop_thread, invLoop_thread st.id dm cd ops st.invariants
          ([] ++ (if st.id ∈ sids then [dupStateMsg st.id] else []))]
    cases h : invLoop st.id dm cd ops st.invariants [] with
    | error e => simp [Except.map]
    | ok l =>
      simp only [Except.map]
      rw [ih (if st.id ∈ sids then sids else sids ++ [st.id])
            ((errs ++ (if st.id ∈ sids then [dupStateMsg st.id] else [])) ++ l),
          ih (if st.id ∈ sids then sids else sids ++ [st.id])
            (([] ++ (if st.id ∈ sids then [dupStateMsg st.id] else [])) ++ l)]
      cases stateLoop dm cd ops rest (if st.id ∈ sids then sids else sids ++ [st.id]) [] <;>
        simp [Except.map]

theorem statesPhase_thread (spec : Spec) (dm : DM) (cd : CD) (ops : List String)
    (errs : List String) :
    statesPhase spec dm cd ops errs =
      (statesPhase spec dm cd ops []).map (fun p => (errs ++ p.1, p.2)) := by
  unfold statesPhase
  cases spec.states with
  | none => simp [Except.map]
  | some sts => exact stateLoop_thread dm cd ops sts [] errs

theorem devLoop_thread (cd : CD) :
    ∀ (ds : List Device) (dm : DM) (errs : List String),
      devLoop cd ds dm errs =
        (errs ++ (devLoop cd ds dm []).1, (devLoop cd ds dm []).2) := by
  intro ds
  induction ds with
  | nil => intro dm errs; simp [devLoop]
  | cons d rest ih =>
    intro dm errs
    simp only [devLoop]
    split
    all_goals
      simp only [List.nil_append]
      conv_lhs => rw [ih]
      conv_rhs => rw [ih]
      simp [List.append_assoc]

theorem validate_devices_thread (spec : Spec) (caps : Caps) (errs : List String) :
    validate_devices spec caps errs =
      (errs ++ (validate_devices spec caps []).1, (validate_devices spec caps []).2) := by
  unfold validate_devices
  cases hd : spec.devices with
  | none => simp
  | some ds =>
    dsimp only
    rw [devLoop_thread caps.devices ds [] errs]
    simp [List.append_assoc]

theorem transLoop_thread (dm : DM) (cd : CD) (sids bops ops : List String) :
    ∀ (trs : List TransS) (i : Nat) (errs : List String),
      transLoop dm cd sids bops ops trs i errs =
        (transLoop dm cd sids bops ops trs i []).map (fun l => errs ++ l) := by
  intro trs
  induction trs with
  | nil => intro i errs; simp [transLoop, Except.map]
  | cons tr rest ih =>
    intro i errs
    simp only [transLoop]
    conv_lhs => rw [validate_trigger_thread]
    conv_rhs => rw [validate_trigger_thread]
    cases h : validate_trigger (tr.trigger.getD "") dm cd bops ops [] with
    | error e => simp [Except.map]
    | ok l =>
      simp only [Except.map]
      conv_lhs => rw [validate_action_thread]
      conv_rhs => rw [validate_action_thread]
      cases h2 : validate_action (tr.action.getD "") dm cd [] with
      | error e => simp [Except.map]
      | ok l2 =>
        simp only [Except.map]
        conv_lhs => rw [ih (i + 1)]
        conv_rhs => rw [ih (i + 1)]
        cases transLoop dm cd sids bops ops rest (i + 1) [] <;> simp [Except.map]

theorem transPhase_thread (spec : Spec) (dm : DM) (cd : CD)
    (sids bops ops : List String) (errs : List String) :
    transPhase spec dm cd sids bops ops errs =
      (transPhase spec dm cd sids bops ops []).map (fun l => errs ++ l) := by
  unfold transPhase
  cases spec.transitions with
  | none => simp [Except.map]
  | some trs => exact transLoop_thread dm cd sids bops ops trs 1 errs

theorem mainValidate_thread (spec : Spec) (caps : Caps) (errs : List String) :
    mainValidate spec caps errs = (mainValidate spec caps []).map (fun l => errs ++ l) := by
  unfold mainValidate
  conv_lhs => rw [validate_devices_thread]
  conv_rhs => rw [validate_devices_thread]
  rcases hvd : validate_devices spec caps [] with ⟨P, D, C⟩
  simp only [hvd]
  conv_lhs => rw [statesPhase_thread]
  conv_rhs => rw [statesPhase_thread]
  cases hsp : statesPhase spec D C caps.ops [] with
  | error e => simp [Except.map]
  | ok p =>
    obtain ⟨stD, sids⟩ := p
    simp only [Except.map]
    conv_lhs => rw [transPhase_thread]
    conv_rhs => rw [transPhase_thread]
    cases transPhase spec D C sids (caps.bool_ops.getD ["&&", "||"]) caps.ops [] <;>
      simp [Except.map]

/-! ## Decidable equality for run results -/

/-- Decidable equality of modelled run results, used to evaluate the
validator on closed inputs. -/
def exceptDecEq : DecidableEq (Except String (List String))
  | .ok a, .ok b =>
    if h : a = b then .isTrue (by rw [h])
    else .isFalse (fun hh => h (by cases hh; rfl))
  | .error a, .error b =>
    if h : a = b then .isTrue (by rw [h])
    else .isFalse (fun hh => h (by cases hh; rfl))
  | .ok a, .error b => .isFalse (fun hh => Except.noConfusion hh)
  | .error a, .ok b => .isFalse (fun hh => Except.noConfusion hh)

instance : DecidableEq (Except String (List String)) := exceptDecEq

/-! ## Concrete scenario instances from the specification -/

/-- The Scenario A capability schema: device type `switch` with attribute
`power` over `{"on","off"}` and action `toggle`. -/
def scenACaps : Caps :=
  { devices := [("switch",
      { attributes := [("power", ["on", "off"])], actions := ["toggle"] })],
    ops := ["==", "!="],
    bool_ops := none }

/-- The Scenario A bundle: one device `switch1 : switch`, states `Idle` and
`On` with one valid invariant each, one transition `Idle → On`. -/
def scenASpec : Spec :=
  { bundle_name := some "Bundle1",
    devices := some [{ id := "switch1", type := "switch", attributes := ["power"] }],
    states := some
      [{ id := "Idle", invariants := ["switch1.power == \"off\""] },
       { id := "On", invariants := ["switch1.power == \"on\""] }],
    transitions := some
      [{ source := some "Idle", target := some "On",
         trigger := some "switch1.power == \"off\"",
         action := some "switch1.toggle()" }],
    notes := some "" }

/-- The three diagnostics Scenario A actually produces. -/
def scenADiags : List String :=
  ["Required device missing: presenceSensor",
   "Required device missing: motionSensor",
   "Required device missing: switch"]

/-- A well-formed bundle whose only flaw is a state invariant naming an
attribute (`bogus`) unknown for the device's type. -/
def bugSpec : Spec :=
  { bundle_name := some "Bundle1",
    devices := some [{ id := "switch1", type := "switch", attributes := ["power"] }],
    states := some [{ id := "Idle", invariants := ["switch1.bogus == \"x\""] }],
    transitions := some [],
    notes := some "" }

/-! ## Claim C1 -/

/-- C1 counterexample: for the Scenario A bundle the validator does *not*
return zero Diagnostics (so the tool does not report OK): the required-v1
baseline check of `validate_devices` fires for `presenceSensor`,
`motionSensor` and `switch`, none of which is a declared device id. -/
theorem scenarioA_not_ok : ¬ reportsOK scenASpec scenACaps := by
  unfold reportsOK
  decide

/-- C1 amended: for the Scenario A bundle, validation terminates normally
with exactly the three `Required device missing` Diagnostics (for
`presenceSensor`, `motionSensor` and `switch`, in that fixed order), and
nothing else: every device, state-invariant, trigger and action check of
the scenario passes. -/
theorem scenarioA_required_device_diagnostics :
    mainValidate scenASpec scenACaps [] = .ok scenADiags ∧ scenADiags ≠ [] := by
  constructor
  · decide
  · decide

/-! ## Claim C2 -/

/-- C2 (the code bug): on a well-formed bundle whose state invariant names
an unknown attribute for a known device, validation does *not* terminate
normally: after recording the `Unknown attribute` Diagnostic, the state
phase evaluates `caps_devices[dtype]["attributes"][attr]`
(`validate_spec.py` line 279) and raises `KeyError` instead of continuing. -/
theorem invariant_unknown_attribute_raises :
    mainValidate bugSpec scenACaps [] = .error "KeyError: attributes[attr]" ∧
      checkInvariant "Idle" "switch1.bogus == \"x\"" [("switch1", "switch")]
        scenACaps.devices ["==", "!="] [] = .error "KeyError: attributes[attr]" := by
  constructor
  · decide
  · decide

/-! ## Claim C5 -/

/-- C5 amended (general form): the diagnostic accumulator is the
module-global `ERRS`, never reset between calls; a second in-process
validation of the same bundle starts from the first call's output and
therefore ends with those diagnostics repeated: its final accumulator is
`E1 ++ E1`, not `E1`. -/
theorem validator_accumulator_is_global (spec : Spec) (caps : Caps) (E1 : List String)
    (h : mainValidate spec caps [] = .ok E1) :
    mainValidate spec caps E1 = .ok (E1 ++ E1) := by
  rw [mainValidate_thread, h]
  simp [Except.map]

/-- C5 witness for `validator_accumulator_is_global`, at the Scenario A
bundle. -/
theorem validator_accumulator_is_global_witness :
    mainValidate scenASpec scenACaps scenADiags = .ok (scenADiags ++ scenADiags) :=
  validator_accumulator_is_global scenASpec scenACaps scenADiags (by decide)

/-- C5 counterexample: validating the Scenario A bundle twice in sequence
in one process does not give each call that bundle's Diagnostics alone —
the second call's accumulator holds the first call's three diagnostics
twice over. -/
theorem second_validation_repeats_diagnostics :
    mainValidate scenASpec scenACaps [] = .ok scenADiags ∧
      mainValidate scenASpec scenACaps scenADiags = .ok (scenADiags ++ scenADiags) ∧
      scenADiags ++ scenADiags ≠ scenADiags := by
  refine ⟨by decide, by decide, by decide⟩

/-! ## Claim C6 -/

/-- C6: for every bundle document with all five top-level sections present
(the data-model shape of a Bundle) whose validation terminates normally,
the returned Diagnostic sequence is exactly the device-phase diagnostics
(computed by the in-spec-order device loop, required-baseline checks last),
followed by the state-phase diagnostics (in-spec-order state loop,
invariants in declared order), followed by the transition-phase diagnostics
(in-spec-order transition loop). -/
theorem diagnostics_ordered_by_phase (spec : Spec) (caps : Caps) (ds : List String)
    (h1 : spec.bundle_name.isSome) (h2 : spec.devices.isSome)
    (h3 : spec.states.isSome) (h4 : spec.transitions.isSome)
    (h5 : spec.notes.isSome)
    (hok : mainValidate spec caps [] = .ok ds) :
    ∃ devD dm cd stD sids trD,
      validate_devices spec caps [] = (devD, dm, cd) ∧
      statesPhase spec dm cd caps.ops [] = .ok (stD, sids) ∧
      transPhase spec dm cd sids (caps.bool_ops.getD ["&&", "||"]) caps.ops [] = .ok trD ∧
      ds = devD ++ stD ++ trD := by
  have hk : keyDiags spec = [] := by
    unfold keyDiags
    simp [h1, h2, h3, h4, h5]
  unfold mainValidate at hok
  rw [hk] at hok
  simp only [List.append_nil] at hok
  rcases hvd : validate_devices spec caps [] with ⟨devD, dm, cd⟩
  rw [hvd] at hok
  simp only at hok
  rw [statesPhase_thread] at hok
  cases hsp : statesPhase spec dm cd caps.ops [] with
  | error e => rw [hsp] at hok; simp [Except.map] at hok
  | ok p =>
    obtain ⟨stD, sids⟩ := p
    rw [hsp] at hok
    simp only [Except.map] at hok
    rw [transPhase_thread] at hok
    cases htp : transPhase spec dm cd sids (caps.bool_ops.getD ["&&", "||"]) caps.ops [] with
    | error e => rw [htp] at hok; simp [Except.map] at hok
    | ok trD =>
      rw [htp] at hok
      simp only [Except.map, Except.ok.injEq] at hok
      exact ⟨devD, dm, cd, stD, sids, trD, rfl, hsp, htp, by rw [← hok]⟩

/-- C6 witness for `diagnostics_ordered_by_phase`, at the Scenario A
bundle: the three device-phase diagnostics, empty state and transition
phases. -/
theorem diagnostics_ordered_by_phase_witness :
    ∃ devD dm cd stD sids trD,
      validate_devices scenASpec scenACaps [] = (devD, dm, cd) ∧
      statesPhase scenASpec dm cd scenACaps.ops [] = .ok (stD, sids) ∧
      transPhase scenASpec dm cd sids (scenACaps.bool_ops.getD ["&&", "||"])
        scenACaps.ops [] = .ok trD ∧
      scenADiags = devD ++ stD ++ trD :=
  diagnostics_ordered_by_phase scenASpec scenACaps scenADiags
    (by decide) (by decide) (by decide) (by decide) (by decide) (by decide)

/-! ## Character-class facts -/

/-- A whitespace character is not `&`. -/
theorem pyWs_ne_amp {c : Char} (h : isPyWs c = true) : c ≠ '&' := by
  intro he
  subst he
  simp [isPyWs] at h

/-- A whitespace character is not `|`. -/
theorem pyWs_ne_bar {c : Char} (h : isPyWs c = true) : c ≠ '|' := by
  intro he
  subst he
  simp [isPyWs] at h

/-- An identifier-start character is not whitespace. -/
theorem identStart_not_ws {c : Char} (h : isIdentStart c = true) : isPyWs c = false := by
  cases hb : isPyWs c with
  | false => rfl
  | true =>
    rcases (show c = ' ' ∨ c = '\t' ∨ c = '\n' ∨ c = '\r' ∨ c = Char.ofNat 11 ∨ c = Char.ofNat 12 from by
        simpa [isPyWs, or_assoc] using hb) with h1 | h1 | h1 | h1 | h1 | h1 <;>
      (subst h1; simp [isIdentStart] at h)

/-! ## Claim C9 machinery: the scan over whitespace-only input -/

/-- If every remaining character is whitespace, the scan just accumulates
them into the buffer and finishes. -/
theorem sbGo_all_ws : ∀ (cs buf : List Char), (∀ c ∈ cs, isPyWs c = true) →
    sbGo cs buf = sbFinish (buf ++ cs) := by
  intro cs
  induction cs with
  | nil => intro buf h; simp [sbGo]
  | cons c tail ih =>
    intro buf h
    have hc : isPyWs c = true := h c (by simp)
    cases tail with
    | nil => simp [sbGo]
    | cons c2 rest =>
      have hcond : ((c = '&' && c2 = '&') || (c = '|' && c2 = '|')) = false := by
        simp [pyWs_ne_amp hc, pyWs_ne_bar hc]
      rw [sbGo, if_neg (by simp [hcond])]
      rw [ih (buf ++ [c]) (fun x hx => h x (by simp [hx]))]
      simp

/-- Stripping a whitespace-only character list yields the empty list. -/
theorem pyStrip_all_ws {cs : List Char} (h : ∀ c ∈ cs, isPyWs c = true) :
    pyStrip cs = [] := by
  unfold pyStrip
  have h1 : cs.dropWhile isPyWs = [] := by
    rw [List.dropWhile_eq_nil_iff]
    exact h
  rw [h1]
  simp

/-- C9: a trigger whose text is empty or whitespace-only tokenizes to no
tokens at all, and the trigger check accepts it silently: no grammar
Diagnostic is recorded (even though the grammar `atom ((&&|||) atom)*`
requires at least one atom). -/
theorem empty_trigger_silently_accepted (expr : String) (dm : DM) (cd : CD)
    (bops ops errs : List String)
    (h : ∀ c ∈ expr.data, isPyWs c = true) :
    split_bool expr bops = [] ∧
      validate_trigger expr dm cd bops ops errs = .ok errs := by
  have hsplit : split_bool expr bops = [] := by
    unfold split_bool
    rw [sbGo_all_ws expr.data [] h]
    unfold sbFinish
    rw [if_pos (by simp [pyStrip_all_ws h])]
  refine ⟨hsplit, ?_⟩
  unfold validate_trigger
  rw [hsplit]
  simp [triggerWalk]

/-- C9 witness: the one-space trigger of an otherwise empty context is
accepted with no diagnostics. -/
theorem empty_trigger_silently_accepted_witness :
    split_bool " " ["&&", "||"] = [] ∧
      validate_trigger " " [] [] ["&&", "||"] [] [] = .ok [] :=
  empty_trigger_silently_accepted " " [] [] ["&&", "||"] [] [] (by decide)

/-! ## Claim C10 machinery: identifiers and the atom regex -/

/-- A string of the identifier shape `[a-zA-Z_]\w*`. -/
def isIdentStr (s : String) : Bool :=
  match s.data with
  | [] => false
  | c :: rest => isIdentStart c && rest.all (fun x => isWordChar x)

/-- Destructure an identifier-shaped string. -/
theorem isIdentStr_elim {s : String} (h : isIdentStr s = true) :
    ∃ c w, s.data = c :: w ∧ isIdentStart c = true ∧ ∀ x ∈ w, isWordChar x = true := by
  unfold isIdentStr at h
  cases hs : s.data with
  | nil => rw [hs] at h; simp at h
  | cons c w =>
    rw [hs] at h
    simp only [Bool.and_eq_true, List.all_eq_true] at h
    exact ⟨c, w, rfl, h.1, h.2⟩
/-- `takeIdent` on an identifier followed by a non-word character consumes
exactly the identifier (the greedy `\w*` stops at the first non-word
character). -/
theorem takeIdent_append (c : Char) (w : List Char) (r : Char) (rs : List Char)
    (hc : isIdentStart c = true) (hw : ∀ x ∈ w, isWordChar x = true)
    (hr : isWordChar r = false) :
    takeIdent (c :: (w ++ r :: rs)) = some (c :: w, r :: rs) := by
  simp only [takeIdent]
  rw [if_pos hc]
  rw [List.takeWhile_append_of_pos hw, List.dropWhile_append_of_pos hw]
  simp [hr]

/-- C10: the value group `([^"]+)` of `TRIG_ATOM_RE` requires a non-empty
quoted literal: for every atom text `device.attribute OP ""` built from
identifier-shaped `device`/`attribute` and `OP` among `==`/`!=`, the matcher
fails, and `validate_atom` records exactly one bad-atom Diagnostic,
regardless of the device map, capability table and operator set. -/
theorem empty_value_atom_rejected (d a op : String)
    (hd : isIdentStr d = true) (ha : isIdentStr a = true)
    (hop : op = "==" ∨ op = "!=")
    (dm : DM) (cd : CD) (ops : List String) (errs : List String) :
    matchAtom (d ++ "." ++ a ++ " " ++ op ++ " \"\"") = none ∧
      validate_atom (d ++ "." ++ a ++ " " ++ op ++ " \"\"") dm cd ops errs =
        .ok (errs ++ [badAtomMsg (d ++ "." ++ a ++ " " ++ op ++ " \"\"")]) := by
  obtain ⟨c1, w1, hd1, hc1, hw1⟩ := isIdentStr_elim hd
  obtain ⟨c2, w2, ha1, hc2, hw2⟩ := isIdentStr_elim ha
  have hmatch : matchAtom (d ++ "." ++ a ++ " " ++ op ++ " \"\"") = none := by
    have hdata : (d ++ "." ++ a ++ " " ++ op ++ " \"\"").data =
        c1 :: (w1 ++ '.' :: (c2 :: (w2 ++ ' ' :: (op.data ++ [' ', '"', '"'])))) := by
      simp [String.data_append, hd1, ha1]
    have hws1 : dropWs (c1 :: (w1 ++ '.' :: (c2 :: (w2 ++ ' ' :: (op.data ++ [' ', '"', '"']))))) =
        c1 :: (w1 ++ '.' :: (c2 :: (w2 ++ ' ' :: (op.data ++ [' ', '"', '"'])))) := by
      unfold dropWs
      exact List.dropWhile_cons_of_neg (by simp [identStart_not_ws hc1])
    have hws2 : dropWs (' ' :: (op.data ++ [' ', '"', '"'])) =
        op.data ++ [' ', '"', '"'] := by
      unfold dropWs
      rw [List.dropWhile_cons_of_pos (by decide)]
      rcases hop with h | h <;>
        (subst h; exact List.dropWhile_cons_of_neg (by decide))
    unfold matchAtom
    rw [hdata, hws1]
    rw [takeIdent_append c1 w1 '.' (c2 :: (w2 ++ ' ' :: (op.data ++ [' ', '"', '"'])))
          hc1 hw1 (by decide)]
    dsimp only
    rw [show expectChar '.' ('.' :: (c2 :: (w2 ++ ' ' :: (op.data ++ [' ', '"', '"'])))) =
          some (c2 :: (w2 ++ ' ' :: (op.data ++ [' ', '"', '"']))) from by simp [expectChar]]
    dsimp only
    rw [takeIdent_append c2 w2 ' ' (op.data ++ [' ', '"', '"']) hc2 hw2 (by decide)]
    dsimp only
    rw [hws2]
    rcases hop with h | h <;> (subst h; rfl)
  refine ⟨hmatch, ?_⟩
  unfold validate_atom
  rw [hmatch]

/-- C10 witness: the concrete atom `a.b == ""` is rejected as a bad atom
even against an empty schema. -/
theorem empty_value_atom_rejected_witness :
    matchAtom ("a" ++ "." ++ "b" ++ " " ++ "==" ++ " \"\"") = none ∧
      validate_atom ("a" ++ "." ++ "b" ++ " " ++ "==" ++ " \"\"") [] [] [] [] =
        .ok ([] ++ [badAtomMsg ("a" ++ "." ++ "b" ++ " " ++ "==" ++ " \"\"")]) :=
  empty_value_atom_rejected "a" "b" "==" (by decide) (by decide) (Or.inl rfl) [] [] [] []

/-! ## Claim C3 machinery: the scan across connective-free text -/

/-- One scan step over a character that cannot start a connective. -/
theorem sbGo_cons2 (x y : Char) (ys buf : List Char) (hx : x ≠ '&' ∧ x ≠ '|') :
    sbGo (x :: y :: ys) buf = sbGo (y :: ys) (buf ++ [x]) := by
  rw [sbGo]
  rw [if_neg (by simp [hx.1, hx.2])]

/-- The scan passes over connective-free characters, accumulating them. -/
theorem sbGo_cross (xs : List Char) (h : ∀ c ∈ xs, c ≠ '&' ∧ c ≠ '|') :
    ∀ (rest buf : List Char), sbGo (xs ++ rest) buf = sbGo rest (buf ++ xs) := by
  induction xs with
  | nil => intro rest buf; simp
  | cons x xt ih =>
    intro rest buf
    have hx := h x (by simp)
    rw [List.cons_append]
    cases hxtrest : xt ++ rest with
    | nil =>
      obtain ⟨hxt, hrest⟩ := List.append_eq_nil.mp hxtrest
      subst hxt
      subst hrest
      simp [sbGo]
    | cons y ys =>
      rw [sbGo_cons2 x y ys buf hx]
      rw [← hxtrest]
      rw [ih (fun c hc => h c (by simp [hc])) rest (buf ++ [x])]
      simp

/-- Stripping ignores a whitespace prefix. -/
theorem pyStrip_ws_front (w xs : List Char) (hw : ∀ c ∈ w, isPyWs c = true) :
    pyStrip (w ++ xs) = pyStrip xs := by
  unfold pyStrip
  rw [List.dropWhile_append_of_pos hw]

/-- Stripping ignores a whitespace suffix. -/
theorem pyStrip_ws_suffix (xs w : List Char) (hw : ∀ c ∈ w, isPyWs c = true) :
    pyStrip (xs ++ w) = pyStrip xs := by
  unfold pyStrip
  rw [List.dropWhile_append]
  by_cases he : (xs.dropWhile isPyWs).isEmpty
  · rw [if_pos he]
    have h1 : w.dropWhile isPyWs = [] := List.dropWhile_eq_nil_iff.mpr (fun x hx => hw x hx)
    have h2 : xs.dropWhile isPyWs = [] := by
      cases hxs : xs.dropWhile isPyWs with
      | nil => rfl
      | cons a l => rw [hxs] at he; simp [List.isEmpty] at he
    rw [h1, h2]
  · rw [if_neg he]
    rw [List.reverse_append, List.dropWhile_append_of_pos (by simp [List.mem_reverse]; exact hw)]

/-- A non-empty string whose text is already stripped. -/
theorem strip_fix_data {a : String} (hs : pyStrip a.data = a.data) (hne : a ≠ "") :
    a.data ≠ [] := by
  intro hd
  apply hne
  cases a
  simp at hd
  simp [hd]

/-- The scan at a `||` occurrence: flush the buffer unconditionally (even
when its stripped text is empty), emit the connective, restart. -/
theorem sbGo_conn_or (ys buf : List Char) :
    sbGo ('|' :: '|' :: ys) buf = String.mk (pyStrip buf) :: "||" :: sbGo ys [] := by
  rw [sbGo, if_pos (by decide)]

/-- Tokenization of `atom1 || || atom2` for connective-free, stripped,
non-empty atom texts: the buffer between the two connectives is flushed as
an *empty* atom token. -/
theorem split_double_conn (a1 a2 : String) (bops : List String)
    (h1c : ∀ c ∈ a1.data, c ≠ '&' ∧ c ≠ '|')
    (h2c : ∀ c ∈ a2.data, c ≠ '&' ∧ c ≠ '|')
    (h1s : pyStrip a1.data = a1.data) (h2s : pyStrip a2.data = a2.data)
    (h2ne : a2 ≠ "") :
    split_bool (a1 ++ " || || " ++ a2) bops = [a1, "||", "", "||", a2] := by
  obtain ⟨z, zs, hz⟩ : ∃ z zs, a2.data = z :: zs := by
    cases hA : a2.data with
    | nil => exact absurd hA (strip_fix_data h2s h2ne)
    | cons z zs => exact ⟨z, zs, rfl⟩
  have hdata : (a1 ++ " || || " ++ a2).data =
      a1.data ++ (' ' :: '|' :: '|' :: ' ' :: '|' :: '|' :: ' ' :: a2.data) := by
    simp [String.data_append]
  unfold split_bool
  rw [hdata]
  rw [sbGo_cross a1.data h1c (' ' :: '|' :: '|' :: ' ' :: '|' :: '|' :: ' ' :: a2.data) []]
  rw [List.nil_append]
  rw [sbGo_cons2 ' ' '|' ('|' :: ' ' :: '|' :: '|' :: ' ' :: a2.data) a1.data (by decide)]
  rw [sbGo_conn_or]
  rw [sbGo_cons2 ' ' '|' ('|' :: ' ' :: a2.data) [] (by decide)]
  rw [List.nil_append]
  rw [sbGo_conn_or]
  rw [hz]
  rw [sbGo_cons2 ' ' z zs [] (by decide)]
  rw [List.nil_append]
  rw [show z :: zs = (z :: zs) ++ [] from by simp]
  rw [sbGo_cross (z :: zs) (fun c hc => h2c c (by rw [hz]; simpa using hc)) [] [' ']]
  have hstrip1 : pyStrip (a1.data ++ [' ']) = a1.data := by
    rw [pyStrip_ws_suffix a1.data [' '] (by decide)]
    exact h1s
  have hstrip2 : pyStrip (' ' :: ((z :: zs) ++ [])) = z :: zs := by
    rw [show (' ' :: ((z :: zs) ++ [])) = [' '] ++ (z :: zs) from by simp]
    rw [pyStrip_ws_front [' '] (z :: zs) (by decide)]
    rw [← hz]
    exact h2s
  simp only [List.append_nil] at hstrip2 ⊢
  rw [show sbGo [] ([' '] ++ z :: zs) = sbFinish (' ' :: z :: zs) from rfl]
  unfold sbFinish
  rw [hstrip2]
  rw [if_neg (by simp)]
  rw [hstrip1]
  have h1mk : String.mk a1.data = a1 := rfl
  have h2mk : String.mk (z :: zs) = a2 := by rw [← hz]
  rw [h1mk, h2mk]
  rfl

/-- The expectation walk over `[atom1, "||", "", "||", atom2]` when both
real atoms pass all checks: the empty token sits in an *atom* position, so
the only diagnostic is a bad-atom one for the empty text, and the walk ends
expecting an operator. -/
theorem walk_double_conn (a1 a2 : String) (dm : DM) (cd : CD)
    (bops ops errs : List String) (hbop : "||" ∈ bops)
    (h1ok : validate_atom a1 dm cd ops [] = .ok [])
    (h2ok : validate_atom a2 dm cd ops [] = .ok []) :
    triggerWalk dm cd bops ops [a1, "||", "", "||", a2] true errs =
      .ok (errs ++ [badAtomMsg ""], false) := by
  simp only [triggerWalk]
  rw [validate_atom_thread a1 dm cd ops errs, h1ok]
  simp only [Except.map]
  rw [if_pos hbop]
  rw [show validate_atom "" dm cd ops (errs ++ []) = .ok ((errs ++ []) ++ [badAtomMsg ""]) from rfl]
  dsimp only
  rw [if_pos hbop]
  rw [validate_atom_thread a2 dm cd ops (((errs ++ []) ++ [badAtomMsg ""])), h2ok]
  simp only [Except.map]
  simp

/-- C3 amended: for a trigger of the form `atom1 || || atom2` where the two
atom texts are connective-free, stripped, non-empty and schema-valid, and
`||` is a configured connective, validation reports exactly one Diagnostic:
a *bad-atom* Diagnostic for the empty atom token flushed between the two
connectives (`Bad trigger atom: ` with empty text).  The tokenizer flushes
the buffer at every connective boundary even when it is empty — only the
trailing flush is guarded by non-emptiness — so the empty token is checked
as an atom; no misplaced-operator Diagnostic is involved, and both genuine
atoms are still fully checked with no further Diagnostics. -/
theorem scenarioC_empty_atom_diag (a1 a2 : String) (dm : DM) (cd : CD)
    (bops ops errs : List String)
    (h1c : ∀ c ∈ a1.data, c ≠ '&' ∧ c ≠ '|')
    (h2c : ∀ c ∈ a2.data, c ≠ '&' ∧ c ≠ '|')
    (h1s : pyStrip a1.data = a1.data) (h2s : pyStrip a2.data = a2.data)
    (h2ne : a2 ≠ "") (hbop : "||" ∈ bops)
    (h1ok : validate_atom a1 dm cd ops [] = .ok [])
    (h2ok : validate_atom a2 dm cd ops [] = .ok []) :
    split_bool (a1 ++ " || || " ++ a2) bops = [a1, "||", "", "||", a2] ∧
      validate_trigger (a1 ++ " || || " ++ a2) dm cd bops ops errs =
        .ok (errs ++ [badAtomMsg ""]) := by
  have hsplit := split_double_conn a1 a2 bops h1c h2c h1s h2s h2ne
  refine ⟨hsplit, ?_⟩
  unfold validate_trigger
  rw [hsplit]
  rw [walk_double_conn a1 a2 dm cd bops ops errs hbop h1ok h2ok]
  simp

/-- The Scenario C device map: devices `a` and `c` of types `ta` / `tc`. -/
def scenCDm : DM := [("a", "ta"), ("c", "tc")]

/-- The Scenario C capability table: `ta.b ∈ {"x"}`, `tc.d ∈ {"y"}`. -/
def scenCCd : CD :=
  [("ta", { attributes := [("b", ["x"])], actions := [] }),
   ("tc", { attributes := [("d", ["y"])], actions := [] })]

/-- C3 witness for `scenarioC_empty_atom_diag`, at the exact Scenario C
trigger `a.b == "x" || || c.d == "y"`. -/
theorem scenarioC_empty_atom_diag_witness :
    split_bool ("a.b == \"x\"" ++ " || || " ++ "c.d == \"y\"") ["&&", "||"] =
      ["a.b == \"x\"", "||", "", "||", "c.d == \"y\""] ∧
      validate_trigger ("a.b == \"x\"" ++ " || || " ++ "c.d == \"y\"") scenCDm scenCCd
        ["&&", "||"] ["==", "!="] [] = .ok ([] ++ [badAtomMsg ""]) :=
  scenarioC_empty_atom_diag "a.b == \"x\"" "c.d == \"y\"" scenCDm scenCCd
    ["&&", "||"] ["==", "!="] []
    (by decide) (by decide) (by decide) (by decide) (by decide) (by decide)
    (by decide) (by decide)

/-- C3 counterexample: on Scenario C's trigger the single recorded
Diagnostic is `Bad trigger atom: ` (the bad-atom message with empty text),
not a misplaced-operator Diagnostic — the misplaced-operator message shape
(`Expected boolean op between atoms, got: ...`) never occurs in the output,
so the count of misplaced-operator Diagnostics is 0, not 1; and the
tokenizer emits the empty token rather than suppressing it. -/
theorem scenarioC_no_misplaced_operator_diag :
    validate_trigger "a.b == \"x\" || || c.d == \"y\"" scenCDm scenCCd
        ["&&", "||"] ["==", "!="] [] = .ok ["Bad trigger atom: "] ∧
      (["Bad trigger atom: "].filter
        (fun m => decide ("Expected boolean op between atoms, got: ".data <+: m.data))).length = 0 ∧
      split_bool "a.b == \"x\" || || c.d == \"y\"" ["&&", "||"] =
        ["a.b == \"x\"", "||", "", "||", "c.d == \"y\""] := by
  refine ⟨by decide, by decide, by decide⟩

/-! ## Claim C4 machinery: the code-point order used by `sorted` -/

/-- Transitivity of the code-point comparison. -/
theorem clLt_trans : ∀ (x y z : List Char),
    clLt x y = true → clLt y z = true → clLt x z = true := by
  intro x
  induction x with
  | nil =>
    intro y z hxy hyz
    cases y with
    | nil => simp [clLt] at hxy
    | cons b bs =>
      cases z with
      | nil => simp [clLt] at hyz
      | cons c cs => simp [clLt]
  | cons a as ih =>
    intro y z hxy hyz
    cases y with
    | nil => simp [clLt] at hxy
    | cons b bs =>
      cases z with
      | nil => simp [clLt] at hyz
      | cons c cs =>
        simp only [clLt] at hxy hyz ⊢
        split_ifs at hxy hyz ⊢ <;>
          first
          | rfl
          | omega
          | simp at hxy
          | simp at hyz
          | exact ih bs cs hxy hyz

/-- Totality of the code-point comparison. -/
theorem clLt_total : ∀ (x y : List Char),
    clLt x y = true ∨ clLt y x = true ∨ x = y := by
  intro x
  induction x with
  | nil => intro y; cases y <;> simp [clLt]
  | cons a as ih =>
    intro y
    cases y with
    | nil => simp [clLt]
    | cons b bs =>
      simp only [clLt]
      by_cases h1 : a.toNat < b.toNat
      · left; rw [if_pos h1]
      · by_cases h2 : b.toNat < a.toNat
        · right; left; rw [if_pos h2]
        · have hab : a = b := Char.ext (UInt32.ext (by
            unfold Char.toNat at h1 h2
            omega))
          rcases ih bs with h | h | h
          · left; rw [if_neg h1, if_neg h2]; exact h
          · right; left; rw [if_neg h2, if_neg h1]; exact h
          · right; right; rw [hab, h]

instance : IsTrans String (fun a b => pyStrLe a b = true) where
  trans := by
    intro a b c hab hbc
    simp only [pyStrLe, Bool.or_eq_true, beq_iff_eq] at hab hbc ⊢
    rcases hab with hab | hab
    · rcases hbc with hbc | hbc
      · exact Or.inl (clLt_trans _ _ _ hab hbc)
      · subst hbc; exact Or.inl hab
    · subst hab; exact hbc

instance : IsTotal String (fun a b => pyStrLe a b = true) where
  total := by
    intro a b
    simp only [pyStrLe, Bool.or_eq_true, beq_iff_eq]
    rcases clLt_total a.data b.data with h | h | h
    · exact Or.inl (Or.inl h)
    · exact Or.inr (Or.inl h)
    · have hab : a = b := by
        cases a
        cases b
        exact congrArg String.mk (by simpa using h)
      exact Or.inl (Or.inr hab)

/-- `pySortedSet` really is sorted in the code-point order Python `sorted`
uses on strings. -/
theorem pySortedSet_sorted (l : List String) :
    List.Sorted (fun a b => pyStrLe a b = true) (pySortedSet l) :=
  List.sorted_insertionSort _ _

/-- C4 amended: for every *trigger/action-path* atom (checked by
`validate_atom`) whose device, attribute and operator are valid but whose
literal value is outside the allowed set, the Diagnostic is the
invalid-value message carrying `allowed=` followed by the full allowed
value set, deduplicated and sorted ascending in code-point order (the
rendering of `sorted(allowed_vals)`), as a suffix of the message text.  A
state-invariant atom with the same flaw gets the shorter message without
the allowed set (see the counterexample). -/
theorem trigger_value_diag_sorted_allowed_set
    (atom dev attr op val dtype : String) (ct : CapType) (vals : List String)
    (dm : DM) (cd : CD) (ops errs : List String)
    (hm : matchAtom atom = some (dev, attr, op, val))
    (hdev : dmLookup dm dev = some dtype)
    (hct : cdLookup cd dtype = some ct)
    (hattr : attrLookup ct attr = some vals)
    (hopok : op ∈ ops) (hval : val ∉ vals) :
    validate_atom atom dm cd ops errs =
      .ok (errs ++ [invalidValTrigMsg val dev attr (pySortedSet vals)]) ∧
      List.Sorted (fun a b => pyStrLe a b = true) (pySortedSet vals) ∧
      (pyReprStrList (pySortedSet vals)).data <:+
        (invalidValTrigMsg val dev attr (pySortedSet vals)).data := by
  refine ⟨?_, pySortedSet_sorted vals, ?_⟩
  · unfold validate_atom
    rw [hm]
    dsimp only
    rw [hdev]
    dsimp only
    rw [hct]
    dsimp only
    rw [hattr]
    dsimp only
    rw [if_pos hopok, if_neg hval]
    simp
  · refine ⟨("Invalid value " ++ val ++ " for " ++ dev ++ "." ++ attr ++ "; allowed=").data, ?_⟩
    simp [invalidValTrigMsg, String.data_append]

/-- C4 witness for `trigger_value_diag_sorted_allowed_set`: Scenario B's
atom `switch1.power == "maybe"` against the switch schema. -/
theorem trigger_value_diag_sorted_allowed_set_witness :
    validate_atom "switch1.power == \"maybe\"" [("switch1", "switch")]
        scenACaps.devices ["==", "!="] [] =
      .ok ([] ++ [invalidValTrigMsg "maybe" "switch1" "power" (pySortedSet ["on", "off"])]) ∧
      List.Sorted (fun a b => pyStrLe a b = true) (pySortedSet ["on", "off"]) ∧
      (pyReprStrList (pySortedSet ["on", "off"])).data <:+
        (invalidValTrigMsg "maybe" "switch1" "power" (pySortedSet ["on", "off"])).data :=
  trigger_value_diag_sorted_allowed_set "switch1.power == \"maybe\"" "switch1" "power"
    "==" "maybe" "switch" { attributes := [("power", ["on", "off"])], actions := ["toggle"] }
    ["on", "off"] [("switch1", "switch")] scenACaps.devices ["==", "!="] []
    (by decide) (by decide) (by decide) (by decide) (by decide) (by decide)

/-- C4 counterexample: the same invalid value in a *state invariant* is
reported by the message `Invalid value maybe for switch1.power in
invariant`, whose text does not contain the sorted allowed-value set
`['off', 'on']` at all — so the claim fails for invariant atoms. -/
theorem invariant_value_diag_omits_allowed_set :
    checkInvariant "Idle" "switch1.power == \"maybe\"" [("switch1", "switch")]
        scenACaps.devices ["==", "!="] [] =
      .ok ["Invalid value maybe for switch1.power in invariant"] ∧
      ¬ ("['off', 'on']".data <:+:
          "Invalid value maybe for switch1.power in invariant".data) := by
  refine ⟨by decide, by decide⟩

/-! ## Claim C7 machinery 1: no walk message equals the trailing-operator
message (their first characters differ) -/

/-- Strings with different first characters are different. -/
theorem String_ne_of_head {s t : String} (h : s.data.head? ≠ t.data.head?) : s ≠ t :=
  fun he => h (by rw [he])

theorem badAtomMsg_ne_ends (a : String) : badAtomMsg a ≠ endsWithOpMsg := by
  apply String_ne_of_head
  rw [show (badAtomMsg a).data.head? = some 'B' from rfl]
  decide

theorem unknownDevTrigMsg_ne_ends (a : String) : unknownDevTrigMsg a ≠ endsWithOpMsg := by
  apply String_ne_of_head
  rw [show (unknownDevTrigMsg a).data.head? = some 'U' from rfl]
  decide

theorem unknownAttrTrigMsg_ne_ends (a b : String) :
    unknownAttrTrigMsg a b ≠ endsWithOpMsg := by
  apply String_ne_of_head
  rw [show (unknownAttrTrigMsg a b).data.head? = some 'U' from rfl]
  decide

theorem invalidOpTrigMsg_ne_ends (a b : String) :
    invalidOpTrigMsg a b ≠ endsWithOpMsg := by
  apply String_ne_of_head
  rw [show (invalidOpTrigMsg a b).data.head? = some 'I' from rfl]
  decide

theorem invalidValTrigMsg_ne_ends (a b c : String) (l : List String) :
    invalidValTrigMsg a b c l ≠ endsWithOpMsg := by
  apply String_ne_of_head
  rw [show (invalidValTrigMsg a b c l).data.head? = some 'I' from rfl]
  decide

theorem expectedBoolOpMsg_ne_ends (a : String) :
    expectedBoolOpMsg a ≠ endsWithOpMsg := by
  apply String_ne_of_head
  rw [show (expectedBoolOpMsg a).data.head? = some 'E' from rfl]
  decide

/-- When every device type recorded in the device map is a known capability
type, `validate_atom` cannot raise, and none of its diagnostics is the
trailing-operator message. -/
theorem validate_atom_ok_no_ends (atom : String) (dm : DM) (cd : CD)
    (ops : List String)
    (hdm : ∀ d t, dmLookup dm d = some t → (cdLookup cd t).isSome) :
    ∃ ds, validate_atom atom dm cd ops [] = .ok ds ∧ endsWithOpMsg ∉ ds := by
  unfold validate_atom
  cases hm : matchAtom atom with
  | none =>
    exact ⟨_, rfl, by simp [(badAtomMsg_ne_ends atom).symm]⟩
  | some q =>
    obtain ⟨dev, attr, op, val⟩ := q
    dsimp only
    cases hdev : dmLookup dm dev with
    | none => exact ⟨_, rfl, by simp [(unknownDevTrigMsg_ne_ends dev).symm]⟩
    | some dtype =>
      have hsome := hdm dev dtype hdev
      dsimp only
      cases hct : cdLookup cd dtype with
      | none => rw [hct] at hsome; simp at hsome
      | some ct =>
        dsimp only
        cases hattr : attrLookup ct attr with
        | none => exact ⟨_, rfl, by simp [(unknownAttrTrigMsg_ne_ends dev attr).symm]⟩
        | some vals =>
          dsimp only
          refine ⟨_, rfl, ?_⟩
          by_cases hop : op ∈ ops <;> by_cases hv : val ∈ vals <;>
            simp [hop, hv, (invalidOpTrigMsg_ne_ends op atom).symm,
              (invalidValTrigMsg_ne_ends val dev attr (pySortedSet vals)).symm]

/-- Under the same device-map hypothesis the whole walk terminates normally
and never emits the trailing-operator message. -/
theorem triggerWalk_ok_no_ends (dm : DM) (cd : CD) (bops ops : List String)
    (hdm : ∀ d t, dmLookup dm d = some t → (cdLookup cd t).isSome) :
    ∀ (toks : List String) (ea : Bool),
      ∃ ds b, triggerWalk dm cd bops ops toks ea [] = .ok (ds, b) ∧
        endsWithOpMsg ∉ ds := by
  intro toks
  induction toks with
  | nil => intro ea; exact ⟨[], ea, rfl, by simp⟩
  | cons tok rest ih =>
    intro ea
    cases ea with
    | true =>
      obtain ⟨ds0, hok0, hno0⟩ := validate_atom_ok_no_ends tok dm cd ops hdm
      obtain ⟨ds1, b, hok1, hno1⟩ := ih false
      refine ⟨ds0 ++ ds1, b, ?_, ?_⟩
      · rw [triggerWalk.eq_def]
        dsimp only
        rw [hok0]
        dsimp only
        rw [triggerWalk_thread, hok1]
        simp [Except.map]
      · simp [hno0, hno1]
    | false =>
      obtain ⟨ds1, b, hok1, hno1⟩ := ih true
      refine ⟨(if tok ∈ bops then [] else [expectedBoolOpMsg tok]) ++ ds1, b, ?_, ?_⟩
      · rw [triggerWalk.eq_def]
        dsimp only
        rw [triggerWalk_thread, hok1]
        by_cases hb : tok ∈ bops <;> simp [hb, Except.map]
      · by_cases hb : tok ∈ bops <;>
          simp [hb, hno1, (expectedBoolOpMsg_ne_ends tok).symm]

/-- The final expectation state is a pure parity function of the token
count: it flips on every token. -/
theorem triggerWalk_parity (dm : DM) (cd : CD) (bops ops : List String) :
    ∀ (toks : List String) (ea : Bool) (errs ds : List String) (b : Bool),
      triggerWalk dm cd bops ops toks ea errs = .ok (ds, b) →
      b = (ea == (toks.length % 2 == 0)) := by
  intro toks
  induction toks with
  | nil =>
    intro ea errs ds b h
    simp only [triggerWalk] at h
    cases h
    simp
  | cons tok rest ih =>
    intro ea errs ds b h
    cases ea with
    | true =>
      rw [triggerWalk.eq_def] at h
      dsimp only at h
      cases hva : validate_atom tok dm cd ops errs with
      | error e => rw [hva] at h; cases h
      | ok errs1 =>
        rw [hva] at h
        have hb := ih false errs1 ds b h
        rcases Nat.mod_two_eq_zero_or_one rest.length with hr | hr <;>
          simp [hb, hr, List.length_cons, Nat.add_mod]
    | false =>
      rw [triggerWalk.eq_def] at h
      dsimp only at h
      have hb := ih true _ ds b h
      rcases Nat.mod_two_eq_zero_or_one rest.length with hr | hr <;>
        simp [hb, hr, List.length_cons, Nat.add_mod]

/-! ## Claim C7 machinery 2: the token list ends on a connective only at an
operator position (even index), because flushed buffers never spell a
connective -/

/-- Two adjacent characters that spell a connective. -/
def connPair (a b : Char) : Bool :=
  (a = '&' && b = '&') || (a = '|' && b = '|')

/-- No two adjacent characters spell a connective.  This holds of every
scan buffer: a character is only appended after the scan checked that it
does not start a connective with its successor. -/
def NoAdj (cs : List Char) : Prop :=
  List.Chain' (fun a b => connPair a b = false) cs

/-- Stripping yields a contiguous part of the input. -/
theorem pyStrip_contig (cs : List Char) : pyStrip cs <:+: cs := by
  have h1 : pyStrip cs <+: List.dropWhile isPyWs cs :=
    List.rdropWhile_prefix isPyWs (List.dropWhile isPyWs cs)
  exact h1.isInfix.trans (List.dropWhile_suffix isPyWs).isInfix

/-- A final flush of an adjacency-free buffer cannot produce a connective
token. -/
theorem sbFinish_no_conn_last (buf : List Char) (h : NoAdj buf) :
    ∀ t, (sbFinish buf).getLast? = some t → ¬ (t = "&&" ∨ t = "||") := by
  intro t hlast hconn
  unfold sbFinish at hlast
  by_cases he : (pyStrip buf).isEmpty
  · rw [if_pos he] at hlast
    simp at hlast
  · rw [if_neg he] at hlast
    have ht : t = String.mk (pyStrip buf) := by simpa using hlast.symm
    have hadj : NoAdj (pyStrip buf) := List.Chain'.infix h (pyStrip_contig buf)
    rcases hconn with hc | hc
    · rw [ht] at hc
      have hdata := congrArg String.data hc
      rw [show (String.mk (pyStrip buf)).data = pyStrip buf from rfl,
          show ("&&" : String).data = ['&', '&'] from rfl] at hdata
      rw [hdata] at hadj
      exact absurd (List.chain'_cons.mp hadj).1 (by decide)
    · rw [ht] at hc
      have hdata := congrArg String.data hc
      rw [show (String.mk (pyStrip buf)).data = pyStrip buf from rfl,
          show ("||" : String).data = ['|', '|'] from rfl] at hdata
      rw [hdata] at hadj
      exact absurd (List.chain'_cons.mp hadj).1 (by decide)

/-- Shape of the scan output: if the token list ends with a connective
token, its length is even (the connective sits at an operator position). -/
theorem sbGo_shape : ∀ (n : Nat) (cs buf : List Char), cs.length ≤ n →
    NoAdj (buf ++ cs.take 1) →
    ∀ t, (sbGo cs buf).getLast? = some t → (t = "&&" ∨ t = "||") →
    (sbGo cs buf).length % 2 = 0 := by
  intro n
  induction n with
  | zero =>
    intro cs buf hlen hadj t hlast hconn
    have hcs : cs = [] := List.length_eq_zero.mp (Nat.le_zero.mp hlen)
    subst hcs
    rw [show sbGo [] buf = sbFinish buf from rfl] at hlast
    exact (sbFinish_no_conn_last buf (by simpa using hadj) t hlast hconn).elim
  | succ n ih =>
    intro cs buf hlen hadj t hlast hconn
    rcases cs with _ | ⟨c, rest0⟩
    · rw [show sbGo [] buf = sbFinish buf from rfl] at hlast
      exact (sbFinish_no_conn_last buf (by simpa using hadj) t hlast hconn).elim
    rcases rest0 with _ | ⟨c2, rest⟩
    · rw [show sbGo [c] buf = sbFinish (buf ++ [c]) from rfl] at hlast
      exact (sbFinish_no_conn_last (buf ++ [c]) (by simpa using hadj) t hlast hconn).elim
    by_cases hcond : ((c = '&' && c2 = '&') || (c = '|' && c2 = '|')) = true
    · have hsg : sbGo (c :: c2 :: rest) buf =
          String.mk (pyStrip buf) :: String.mk [c, c2] :: sbGo rest [] := by
        rw [sbGo, if_pos hcond]
      rw [hsg] at hlast ⊢
      rcases hc2 : sbGo rest [] with _ | ⟨u, us⟩
      · simp
      · have hlast1 : (sbGo rest []).getLast? = some t := by
          rw [hc2] at hlast ⊢
          simpa using hlast
        have hrec := ih rest [] (by simp at hlen; omega)
          (by rcases rest with _ | ⟨r, rs⟩ <;> simp [NoAdj]) t hlast1 hconn
        rw [hc2] at hrec
        simp only [List.length_cons] at hrec ⊢
        omega
    · have hsg : sbGo (c :: c2 :: rest) buf = sbGo (c2 :: rest) (buf ++ [c]) := by
        rw [sbGo, if_neg hcond]
      rw [hsg] at hlast ⊢
      have hadj1 : NoAdj (buf ++ [c]) := by simpa using hadj
      have hcc2 : connPair c c2 = false := by
        rw [Bool.not_eq_true] at hcond
        exact hcond
      refine ih (c2 :: rest) (buf ++ [c]) (by simp at hlen ⊢; omega) ?_ t hlast hconn
      show NoAdj ((buf ++ [c]) ++ (c2 :: rest).take 1)
      rw [show (c2 :: rest).take 1 = [c2] from by simp]
      rw [NoAdj, List.chain'_append]
      refine ⟨hadj1, by simp, ?_⟩
      intro x hx y hy
      simp at hy
      subst hy
      rw [List.getLast?_concat] at hx
      simp at hx
      subst hx
      exact hcc2

/-- C7: for every trigger whose token list ends with a connective token
(`&&` or `||`) — e.g. `a.b == "x" &&` — and every device map whose recorded
types are known capability types, the trigger check reports the
ends-with-operator Diagnostic exactly once, as the final Diagnostic, and
performs no atom check on a dangling tail: the scan emits no token after
the final connective (the whitespace tail strips to nothing), so the walk
checks only the listed tokens, none of which can produce the
ends-with-operator message. -/
theorem trailing_operator_single_diag (expr : String) (dm : DM) (cd : CD)
    (bops ops errs : List String)
    (hdm : ∀ d t, dmLookup dm d = some t → (cdLookup cd t).isSome)
    (t : String) (hlast : (split_bool expr bops).getLast? = some t)
    (hconn : t = "&&" ∨ t = "||") :
    ∃ ds, validate_trigger expr dm cd bops ops errs =
        .ok (errs ++ ds ++ [endsWithOpMsg]) ∧ endsWithOpMsg ∉ ds := by
  have hne : split_bool expr bops ≠ [] := by
    intro h0
    rw [h0] at hlast
    simp at hlast
  have heven : (split_bool expr bops).length % 2 = 0 := by
    unfold split_bool at hlast ⊢
    exact sbGo_shape expr.data.length expr.data [] (le_refl _)
      (by rcases expr.data with _ | ⟨x, xs⟩ <;> simp [NoAdj]) t hlast hconn
  obtain ⟨ds, b, hwalk, hno⟩ :=
    triggerWalk_ok_no_ends dm cd bops ops hdm (split_bool expr bops) true
  have hb : b = true := by
    rw [triggerWalk_parity dm cd bops ops (split_bool expr bops) true [] ds b hwalk]
    simp [heven]
  subst hb
  refine ⟨ds, ?_, hno⟩
  unfold validate_trigger
  rw [triggerWalk_thread, hwalk]
  simp only [Except.map]
  rw [if_pos ⟨hne, trivial⟩]

/-- C7 witness for `trailing_operator_single_diag`: the trigger
`a.b == "x" &&` against the empty schema — one bad-atom diagnostic for the
unknown-device atom is followed by exactly one ends-with-operator
diagnostic. -/
theorem trailing_operator_single_diag_witness :
    ∃ ds, validate_trigger "a.b == \"x\" &&" [] [] ["&&", "||"] [] [] =
        .ok ([] ++ ds ++ [endsWithOpMsg]) ∧ endsWithOpMsg ∉ ds :=
  trailing_operator_single_diag "a.b == \"x\" &&" [] [] ["&&", "||"] [] []
    (fun d t h => by simp [dmLookup] at h) "&&" (by decide) (Or.inl rfl)

/-! ## Claim C8 machinery: decimal ids never collide with `t_init` -/

/-- The digit characters are digits. -/
theorem digitChar10_isDigit {m : Nat} (h : m < 10) : (digitChar10 m).isDigit = true := by
  interval_cases m <;> decide

/-- The decimal rendering starts with a digit character. -/
theorem natToStrGo_head_digit : ∀ (fuel n : Nat) (acc : List Char),
    ∃ c cs, natToStrGo (fuel + 1) n acc = c :: cs ∧ c.isDigit = true := by
  intro fuel
  induction fuel with
  | zero =>
    intro n acc
    refine ⟨digitChar10 (n % 10), acc, ?_, digitChar10_isDigit (Nat.mod_lt _ (by omega))⟩
    rw [natToStrGo]
    by_cases h : n < 10 <;> simp [h, natToStrGo]
  | succ f ih =>
    intro n acc
    by_cases h : n < 10
    · exact ⟨digitChar10 (n % 10), acc, by rw [natToStrGo]; simp [h],
        digitChar10_isDigit (Nat.mod_lt _ (by omega))⟩
    · obtain ⟨c, cs, hgo, hdig⟩ := ih (n / 10) (digitChar10 (n % 10) :: acc)
      exact ⟨c, cs, by rw [natToStrGo]; simp [h]; exact hgo, hdig⟩

/-- No decimal transition id `t_<n>` equals the fixed synthetic id
`t_init`: the character after `t_` is a digit, never `i`. -/
theorem tId_ne_tInit (n : Nat) : ("t_" ++ natToStr n) ≠ "t_init" := by
  intro h
  have hdata := congrArg String.data h
  rw [show ("t_" ++ natToStr n).data = 't' :: '_' :: natToStrGo (n + 1) n [] from rfl,
      show ("t_init" : String).data = ['t', '_', 'i', 'n', 'i', 't'] from rfl] at hdata
  obtain ⟨c, cs, hgo, hdig⟩ := natToStrGo_head_digit n n []
  rw [hgo] at hdata
  simp only [List.cons.injEq] at hdata
  rw [hdata.2.2.1] at hdig
  exact absurd hdig (by decide)

/-! ## Claim C8 machinery: closed forms of the generator loops -/

/-- The id dict hits exactly the declared state ids, with value `s_<id>`. -/
theorem xmiIds_mem (states : List StateS) (sid : String)
    (h : sid ∈ states.map (fun s => s.id)) :
    xmiIds states sid = some ("s_" ++ sid) := by
  unfold xmiIds
  rw [if_pos (by simpa using h)]

theorem stateNodeLoop_ok (m : String → Option String) :
    ∀ (sts : List StateS), (∀ s ∈ sts, m s.id = some ("s_" ++ s.id)) →
      stateNodeLoop m sts =
        .ok (sts.map (fun s => stateNodeLine ("s_" ++ s.id) s.id)) := by
  intro sts
  induction sts with
  | nil => intro h; rfl
  | cons s ss ih =>
    intro h
    rw [stateNodeLoop.eq_def]
    dsimp only
    rw [h s (by simp), ih (fun x hx => h x (by simp [hx]))]
    rfl

theorem transLineLoop_ok (m : String → Option String) :
    ∀ (trs : List GTrans) (i : Nat),
      (∀ tr ∈ trs, m tr.source = some ("s_" ++ tr.source) ∧
        m tr.target = some ("s_" ++ tr.target)) →
      transLineLoop m trs i =
        .ok (enumMap (fun j tr => userTransLine j ("s_" ++ tr.source) ("s_" ++ tr.target)) i trs) := by
  intro trs
  induction trs with
  | nil => intro i h; rfl
  | cons tr ts ih =>
    intro i h
    rw [transLineLoop.eq_def]
    dsimp only
    rw [(h tr (by simp)).1, (h tr (by simp)).2, ih (i + 1) (fun x hx => h x (by simp [hx]))]
    rfl

theorem stateStereoLoop_ok (m : String → Option String) :
    ∀ (sts : List StateS) (k : Nat), (∀ s ∈ sts, m s.id = some ("s_" ++ s.id)) →
      stateStereoLoop m sts k =
        .ok ((enumMap (fun j s => stateStereoBlock j ("s_" ++ s.id) s.invariants) k sts).flatten) := by
  intro sts
  induction sts with
  | nil => intro k h; rfl
  | cons s ss ih =>
    intro k h
    rw [stateStereoLoop.eq_def]
    dsimp only
    rw [h s (by simp), ih (k + 1) (fun x hx => h x (by simp [hx]))]
    rfl

theorem transStereoLoop_eq :
    ∀ (trs : List GTrans) (i : Nat),
      transStereoLoop trs i = (enumMap transStereoBlock i trs).flatten := by
  intro trs
  induction trs with
  | nil => intro i; rfl
  | cons tr ts ih =>
    intro i
    rw [transStereoLoop, ih (i + 1)]
    rfl

/-- C8: for every validated bundle (non-empty state list, transition
endpoints among the declared state ids) the structured-model id assignment
is the stated pure function of the ordered state and transition sequences:
(1) each state id `S` maps to external id `s_S`; (2) the node list carries
the fixed synthetic ids `init_1` (first) and `final_1` (last); (3) the
transition list starts with the synthetic `t_init` transition into the
first declared state, followed by the user transitions with ids `t_1`,
`t_2`, ... by 1-based spec position; (4) the stereotype section is the
per-state invariant blocks `stinv_1`, `stinv_2`, ... (by 1-based state
position) followed by per-transition `trig_n`/`act_n` blocks attached to
base `t_n`; and (5) no decimal `t_n` ever equals `t_init`, so the
synthetic initial transition carries no stereotype block. -/
theorem uml_id_assignment (states : List StateS) (trs : List GTrans)
    (hne : states ≠ [])
    (hsrc : ∀ tr ∈ trs, tr.source ∈ states.map (fun s => s.id))
    (htgt : ∀ tr ∈ trs, tr.target ∈ states.map (fun s => s.id)) :
    (∀ sid ∈ states.map (fun s => s.id), xmiIds states sid = some ("s_" ++ sid)) ∧
    make_state_nodes states (xmiIds states) =
      .ok (pseudoLine :: states.map (fun s => stateNodeLine ("s_" ++ s.id) s.id) ++ [finalLine]) ∧
    make_transitions states trs (xmiIds states) =
      .ok (initTransLine ("s_" ++ (states.head hne).id) ::
        enumMap (fun i tr => userTransLine i ("s_" ++ tr.source) ("s_" ++ tr.target)) 1 trs) ∧
    make_stereotypes states trs (xmiIds states) =
      .ok ((enumMap (fun k s => stateStereoBlock k ("s_" ++ s.id) s.invariants) 1 states).flatten ++
        (enumMap transStereoBlock 1 trs).flatten) ∧
    (∀ n : Nat, ("t_" ++ natToStr n) ≠ "t_init") := by
  have hm : ∀ s ∈ states, xmiIds states s.id = some ("s_" ++ s.id) :=
    fun s hs => xmiIds_mem states s.id (List.mem_map_of_mem _ hs)
  refine ⟨fun sid hsid => xmiIds_mem states sid hsid, ?_, ?_, ?_, tId_ne_tInit⟩
  · unfold make_state_nodes
    rw [stateNodeLoop_ok (xmiIds states) states hm]
  · obtain ⟨s0, sts0, hs⟩ : ∃ s0 sts0, states = s0 :: sts0 := by
      cases states with
      | nil => exact absurd rfl hne
      | cons a l => exact ⟨a, l, rfl⟩
    subst hs
    unfold make_transitions
    dsimp only
    rw [hm s0 (by simp)]
    rw [transLineLoop_ok (xmiIds (s0 :: sts0)) trs 1
      (fun tr htr => ⟨xmiIds_mem _ _ (hsrc tr htr), xmiIds_mem _ _ (htgt tr htr)⟩)]
    rfl
  · unfold make_stereotypes
    rw [stateStereoLoop_ok (xmiIds states) states 1 hm]
    rw [transStereoLoop_eq trs 1]

/-- C8 witness for `uml_id_assignment`: the validated Scenario A bundle
(two states, one transition). -/
theorem uml_id_assignment_witness :
    (∀ sid ∈ ([⟨"Idle", ["switch1.power == \"off\""]⟩,
       ⟨"On", ["switch1.power == \"on\""]⟩] : List StateS).map (fun s => s.id),
      xmiIds [⟨"Idle", ["switch1.power == \"off\""]⟩,
        ⟨"On", ["switch1.power == \"on\""]⟩] sid = some ("s_" ++ sid)) ∧
    make_state_nodes [⟨"Idle", ["switch1.power == \"off\""]⟩,
        ⟨"On", ["switch1.power == \"on\""]⟩]
      (xmiIds [⟨"Idle", ["switch1.power == \"off\""]⟩,
        ⟨"On", ["switch1.power == \"on\""]⟩]) =
      .ok (pseudoLine ::
        ([⟨"Idle", ["switch1.power == \"off\""]⟩,
          ⟨"On", ["switch1.power == \"on\""]⟩] : List StateS).map
          (fun s => stateNodeLine ("s_" ++ s.id) s.id) ++ [finalLine]) ∧
    make_transitions [⟨"Idle", ["switch1.power == \"off\""]⟩,
        ⟨"On", ["switch1.power == \"on\""]⟩]
      ([⟨"Idle", "On", "switch1.power == \"off\"", "switch1.toggle()"⟩] : List GTrans)
      (xmiIds [⟨"Idle", ["switch1.power == \"off\""]⟩,
        ⟨"On", ["switch1.power == \"on\""]⟩]) =
      .ok (initTransLine ("s_" ++
          (([⟨"Idle", ["switch1.power == \"off\""]⟩,
            ⟨"On", ["switch1.power == \"on\""]⟩] : List StateS).head (by decide)).id) ::
        enumMap (fun i (tr : GTrans) => userTransLine i ("s_" ++ tr.source) ("s_" ++ tr.target)) 1
          ([⟨"Idle", "On", "switch1.power == \"off\"", "switch1.toggle()"⟩] : List GTrans)) ∧
    make_stereotypes [⟨"Idle", ["switch1.power == \"off\""]⟩,
        ⟨"On", ["switch1.power == \"on\""]⟩]
      ([⟨"Idle", "On", "switch1.power == \"off\"", "switch1.toggle()"⟩] : List GTrans)
      (xmiIds [⟨"Idle", ["switch1.power == \"off\""]⟩,
        ⟨"On", ["switch1.power == \"on\""]⟩]) =
      .ok ((enumMap (fun k (s : StateS) => stateStereoBlock k ("s_" ++ s.id) s.invariants) 1
          ([⟨"Idle", ["switch1.power == \"off\""]⟩,
           ⟨"On", ["switch1.power == \"on\""]⟩] : List StateS)).flatten ++
        (enumMap transStereoBlock 1
          ([⟨"Idle", "On", "switch1.power == \"off\"", "switch1.toggle()"⟩] : List GTrans)).flatten) ∧
    (∀ n : Nat, ("t_" ++ natToStr n) ≠ "t_init") :=
  uml_id_assignment
    [⟨"Idle", ["switch1.power == \"off\""]⟩, ⟨"On", ["switch1.power == \"on\""]⟩]
    ([⟨"Idle", "On", "switch1.power == \"off\"", "switch1.toggle()"⟩] : List GTrans)
    (by decide) (by decide) (by decide)
